import Mathlib

/-!
Verification development for the mono-ai streaming-response normalizer and
tool-call protocol engine.

Strings from the Rust source are modelled as `List Char` (the payloads that
matter are ASCII, so one `Char` stands for one byte of the wire).  The
`serde_json` library is modelled by the executable recursive-descent parser
`parseJson` below (integers only — none of the wire records in question carry
floating-point literals).  Rust `HashMap`s are modelled as association lists
keyed by the `usize` index; lookups are key-based so list order only matters
where explicitly noted.
-/

set_option maxRecDepth 40000

/-- Characters of a Rust `String` / `&str`. -/
abbrev Str := List Char

/-- Left brace character (ASCII 123). -/
def lbrace : Char := Char.ofNat 123

/-- Right brace character (ASCII 125). -/
def rbrace : Char := Char.ofNat 125

/-- Split a list at the first occurrence of the pattern `pat`:
returns the part before the occurrence and the part after it. -/
def splitFirst (pat : Str) : Str → Option (Str × Str)
  | [] => if pat.isPrefixOf ([] : Str) then some ([], []) else none
  | c :: rest =>
    if pat.isPrefixOf (c :: rest) then some ([], (c :: rest).drop pat.length)
    else (splitFirst pat rest).map (fun p => (c :: p.1, p.2))

/-- Split a list on every occurrence of the character `sep`
(like Rust `slice::split`, which keeps empty pieces). -/
def splitOnChar (sep : Char) : Str → List Str
  | [] => [[]]
  | c :: rest =>
    if c = sep then [] :: splitOnChar sep rest
    else match splitOnChar sep rest with
      | [] => [[c]]
      | p :: ps => (c :: p) :: ps

/-- Rust `str::trim` (ASCII whitespace suffices for the payloads modelled). -/
def rustTrim (s : Str) : Str :=
  ((s.dropWhile Char.isWhitespace).reverse.dropWhile Char.isWhitespace).reverse

/-- Rust `str::len`: the UTF-8 byte length. -/
def utf8Len (s : Str) : Nat := s.foldl (fun n c => n + c.utf8Size) 0

/-- Rust `str::strip_prefix`, specialised to our needs. -/
def dropLit (pre s : Str) : Option Str :=
  if pre.isPrefixOf s then some (s.drop pre.length) else none

/-- Association-list model of `HashMap` lookup (`get`). -/
def HMap.get (k : Nat) : List (Nat × α) → Option α
  | [] => none
  | (k', v) :: rest => if k = k' then some v else HMap.get k rest

/-- Association-list model of `HashMap::insert` (replace or append). -/
def HMap.insert (k : Nat) (v : α) : List (Nat × α) → List (Nat × α)
  | [] => [(k, v)]
  | (k', v') :: rest =>
    if k = k' then (k, v) :: rest else (k', v') :: HMap.insert k v rest

/-- Association-list model of `HashMap::remove` (drop the entry). -/
def HMap.remove (k : Nat) : List (Nat × α) → List (Nat × α)
  | [] => []
  | (k', v') :: rest =>
    if k = k' then rest else (k', v') :: HMap.remove k rest

/-- `HashMap::contains_key`. -/
def HMap.containsKey (k : Nat) (l : List (Nat × α)) : Bool :=
  (HMap.get k l).isSome

/-! ## JSON values (model of `serde_json::Value`) -/

/-- JSON values.  Numbers are restricted to integers: no wire record relevant
to the claims carries a floating-point literal. -/
inductive Json where
  | null
  | bool (b : Bool)
  | num (n : Int)
  | str (s : Str)
  | arr (elems : List Json)
  | obj (fields : List (Str × Json))

/-- `serde_json::Value::get` on an object (first binding wins). -/
def Json.get (j : Json) (key : Str) : Option Json :=
  match j with
  | .obj fields => lookupField fields
  | _ => none
where lookupField : List (Str × Json) → Option Json
  | [] => none
  | (k, v) :: rest => if k = key then some v else lookupField rest

/-- `serde_json::Value::as_str`. -/
def Json.asStr : Json → Option Str
  | .str s => some s
  | _ => none

/-- Decode a JSON value as a non-negative integer (serde `u32`/`u64`). -/
def Json.asNat : Json → Option Nat
  | .num n => if 0 ≤ n then some n.toNat else none
  | _ => none

/-- Decode a JSON value as a Rust `bool`. -/
def Json.asBool : Json → Option Bool
  | .bool b => some b
  | _ => none

/-! ## JSON parser (model of `serde_json::from_str`) -/

/-- Is this character a JSON digit? -/
def isDigitChar (c : Char) : Bool := c.isDigit

/-- Parse a run of digits into a natural number; fails on an empty run. -/
def parseDigits (acc : Nat) (seen : Bool) : Str → Option (Nat × Str)
  | [] => if seen then some (acc, []) else none
  | c :: rest =>
    if isDigitChar c then
      parseDigits (acc * 10 + (c.toNat - '0'.toNat)) true rest
    else if seen then some (acc, c :: rest) else none

/-- Parse a JSON string body after the opening quote, handling the simple
escape sequences; returns the string and the remainder after the closing
quote. -/
def parseStringBody : Str → Option (Str × Str)
  | [] => none
  | c :: rest =>
    if c = '"' then some ([], rest)
    else if c = '\\' then
      match rest with
      | [] => none
      | e :: rest' =>
        let dec : Option Char :=
          if e = '"' then some '"'
          else if e = '\\' then some '\\'
          else if e = '/' then some '/'
          else if e = 'n' then some '\n'
          else if e = 't' then some '\t'
          else if e = 'r' then some '\r'
          else none
        match dec with
        | some d => (parseStringBody rest').map (fun p => (d :: p.1, p.2))
        | none => none
    else (parseStringBody rest).map (fun p => (c :: p.1, p.2))

/-- Drop leading JSON whitespace. -/
def skipWs (s : Str) : Str := s.dropWhile Char.isWhitespace

mutual

/-- Fuel-indexed JSON value parser. -/
def parseValue : Nat → Str → Option (Json × Str)
  | 0, _ => none
  | Nat.succ fuel, s =>
    match skipWs s with
    | 'n' :: 'u' :: 'l' :: 'l' :: rest => some (.null, rest)
    | 't' :: 'r' :: 'u' :: 'e' :: rest => some (.bool true, rest)
    | 'f' :: 'a' :: 'l' :: 's' :: 'e' :: rest => some (.bool false, rest)
    | '"' :: rest => (parseStringBody rest).map (fun p => (.str p.1, p.2))
    | '[' :: rest => parseArrayRest fuel (skipWs rest) true
    | '-' :: rest =>
      (parseDigits 0 false rest).map (fun p => (.num (-(p.1 : Int)), p.2))
    | c :: rest =>
      if c = lbrace then parseObjRest fuel (skipWs rest) true
      else if isDigitChar c then
        (parseDigits 0 false (c :: rest)).map (fun p => (.num (p.1 : Int), p.2))
      else none
    | [] => none

/-- Parse the elements of an array after `[` (`first` marks that no element
has been consumed yet, so `]` may close immediately). -/
def parseArrayRest : Nat → Str → Bool → Option (Json × Str)
  | 0, _, _ => none
  | Nat.succ fuel, s, first =>
    match s with
    | ']' :: rest => if first then some (.arr [], rest) else none
    | _ =>
      match parseValue fuel s with
      | none => none
      | some (v, rest) =>
        match skipWs rest with
        | ',' :: rest' =>
          match parseArrayRest fuel (skipWs rest') false with
          | some (.arr vs, rest'') => some (.arr (v :: vs), rest'')
          | _ => none
        | ']' :: rest' => some (.arr [v], rest')
        | _ => none

/-- Parse the members of an object after the opening brace. -/
def parseObjRest : Nat → Str → Bool → Option (Json × Str)
  | 0, _, _ => none
  | Nat.succ fuel, s, first =>
    match s with
    | c :: rest =>
      if c = rbrace then (if first then some (.obj [], rest) else none)
      else if c = '"' then
        match parseStringBody rest with
        | none => none
        | some (key, rest') =>
          match skipWs rest' with
          | ':' :: rest'' =>
            match parseValue fuel (skipWs rest'') with
            | none => none
            | some (v, rest3) =>
              match skipWs rest3 with
              | ',' :: rest4 =>
                match parseObjRest fuel (skipWs rest4) false with
                | some (.obj kvs, rest5) => some (.obj ((key, v) :: kvs), rest5)
                | _ => none
              | c' :: rest4 =>
                if c' = rbrace then some (.obj [(key, v)], rest4) else none
              | _ => none
          | _ => none
      else none
    | [] => none

end

/-- Model of `serde_json::from_str::<serde_json::Value>`: the whole input must
be one JSON value, with only whitespace around it. -/
def parseJson (s : Str) : Option Json :=
  match parseValue (s.length + 1) s with
  | some (v, rest) => if skipWs rest = [] then some v else none
  | none => none

example : parseJson "null".data = some .null := rfl
example : parseJson "[1,2]".data = some (.arr [.num 1, .num 2]) := rfl
example : parseJson "\x7b\"a\":1\x7d".data =
    some (.obj [("a".data, .num 1)]) := rfl
example : parseJson "\x7b\"a\":1".data = none := rfl
example : parseJson " \x7b\"a\": \"x\", \"b\": [true, null]\x7d ".data =
    some (.obj [("a".data, .str "x".data),
                ("b".data, .arr [.bool true, .null])]) := rfl

/-! ## Core data model (src/core/types.rs, src/core/tool.rs)

`TokenUsage` and the `usage` field of `ChatStreamItem` are used by the
provider clients but their definition is not part of the captured sources;
they are modelled from the spec's `UsageInfo` / `UnifiedEvent` shapes.  The
floating-point `cost_usd` pricing field is outside the scope of this
embedding and is omitted. -/

/-- Token usage numbers attached to a stream item (spec `UsageInfo`). -/
structure TokenUsage where
  prompt_tokens : Option Nat
  completion_tokens : Option Nat
  total_tokens : Option Nat
deriving DecidableEq

/-- `core::types::Function`. -/
structure Function where
  name : Str
  arguments : Json

/-- `core::types::ToolCall`. -/
structure ToolCall where
  id : Option Str
  function : Function

/-- `core::types::Message`. -/
structure Message where
  role : Str
  content : Str
  images : Option (List Str)
  tool_calls : Option (List ToolCall)

/-- `core::types::ChatStreamItem` (spec `UnifiedEvent`). -/
structure ChatStreamItem where
  content : Str
  tool_calls : Option (List ToolCall)
  done : Bool
  usage : Option TokenUsage

/-- `core::tool::Tool`; the boxed tool closure becomes a Lean function. -/
structure Tool where
  name : Str
  description : Str
  parameters : Json
  function : Json → Str

/-! ## serde field helpers

serde semantics: a missing or `null` `Option` field is `None`; a present
field of the wrong shape fails the whole record; unknown fields are
ignored. -/

/-- Decode a required struct field. -/
def getReqField (j : Json) (key : Str) (dec : Json → Option α) : Option α :=
  (j.get key).bind dec

/-- Decode an `Option` struct field. -/
def getOptField (j : Json) (key : Str) (dec : Json → Option α) :
    Option (Option α) :=
  match j.get key with
  | none => some none
  | some .null => some none
  | some v => (dec v).map some

/-- Decode a JSON array elementwise. -/
def decodeList (dec : Json → Option α) : Json → Option (List α)
  | .arr xs => xs.mapM dec
  | _ => none

/-- serde structs only deserialize from JSON objects. -/
def Json.isObj : Json → Bool
  | .obj _ => true
  | _ => false

/-! ## Ollama wire records (src/providers/ollama/types.rs) -/

/-- Deserialize `core::types::Function` (required `name`, required
`arguments`). -/
def decodeFunction (j : Json) : Option Function :=
  if j.isObj then do
    let name ← getReqField j "name".data Json.asStr
    let arguments ← j.get "arguments".data
    pure ⟨name, arguments⟩
  else none

/-- Deserialize `core::types::ToolCall`. -/
def decodeToolCall (j : Json) : Option ToolCall :=
  if j.isObj then do
    let id ← getOptField j "id".data Json.asStr
    let function ← getReqField j "function".data decodeFunction
    pure ⟨id, function⟩
  else none

/-- Deserialize `core::types::Message`. -/
def decodeMessage (j : Json) : Option Message :=
  if j.isObj then do
    let role ← getReqField j "role".data Json.asStr
    let content ← getReqField j "content".data Json.asStr
    let images ← getOptField j "images".data (decodeList Json.asStr)
    let tool_calls ← getOptField j "tool_calls".data (decodeList decodeToolCall)
    pure ⟨role, content, images, tool_calls⟩
  else none

/-- `ollama::types::ChatResponse`. -/
structure ChatResponse where
  message : Message
  done : Bool
  prompt_eval_count : Option Nat
  prompt_eval_duration : Option Nat
  eval_count : Option Nat
  eval_duration : Option Nat

/-- Deserialize `ollama::types::ChatResponse`. -/
def decodeChatResponse (j : Json) : Option ChatResponse :=
  if j.isObj then do
    let message ← getReqField j "message".data decodeMessage
    let done ← getReqField j "done".data Json.asBool
    let pec ← getOptField j "prompt_eval_count".data Json.asNat
    let ped ← getOptField j "prompt_eval_duration".data Json.asNat
    let ec ← getOptField j "eval_count".data Json.asNat
    let ed ← getOptField j "eval_duration".data Json.asNat
    pure ⟨message, done, pec, ped, ec, ed⟩
  else none

/-- Model of `serde_json::from_slice::<ChatResponse>` on one wire line. -/
def parseChatResponseLine (line : Str) : Option ChatResponse :=
  (parseJson line).bind decodeChatResponse

example :
    (parseChatResponseLine
      "\x7b\"message\":\x7b\"role\":\"assistant\",\"content\":\"hi\"\x7d,\"done\":false\x7d".data).map
      (fun r => (r.message.content, r.done)) = some ("hi".data, false) := rfl
example : parseChatResponseLine "\x7b\"message\":\x7b\"co".data = none := rfl

/-! ## OpenRouter wire records (src/providers/openrouter/types.rs) -/

/-- `OpenRouterFunctionCall`. -/
structure OpenRouterFunctionCall where
  name : Option Str
  arguments : Option Str

/-- `OpenRouterToolCall` (`call_type` is the serde-renamed `type` field). -/
structure OpenRouterToolCall where
  id : Option Str
  call_type : Option Str
  function : Option OpenRouterFunctionCall

/-- `OpenRouterMessage` (also the shape of a streaming `delta`). -/
structure OpenRouterMessage where
  role : Str
  content : Json
  name : Option Str
  tool_calls : Option (List OpenRouterToolCall)
  tool_call_id : Option Str

/-- `OpenRouterChoice`. -/
structure OpenRouterChoice where
  index : Nat
  message : Option OpenRouterMessage
  delta : Option OpenRouterMessage
  finish_reason : Option Str

/-- `OpenRouterUsage`. -/
structure OpenRouterUsage where
  prompt_tokens : Nat
  completion_tokens : Nat
  total_tokens : Nat

/-- `OpenRouterResponse`. -/
structure OpenRouterResponse where
  id : Str
  object : Str
  created : Nat
  model : Str
  choices : List OpenRouterChoice
  usage : Option OpenRouterUsage

/-- Deserialize `OpenRouterFunctionCall`. -/
def decodeORFunctionCall (j : Json) : Option OpenRouterFunctionCall :=
  if j.isObj then do
    let name ← getOptField j "name".data Json.asStr
    let arguments ← getOptField j "arguments".data Json.asStr
    pure ⟨name, arguments⟩
  else none

/-- Deserialize `OpenRouterToolCall`. -/
def decodeORToolCall (j : Json) : Option OpenRouterToolCall :=
  if j.isObj then do
    let id ← getOptField j "id".data Json.asStr
    let ct ← getOptField j "type".data Json.asStr
    let function ← getOptField j "function".data decodeORFunctionCall
    pure ⟨id, ct, function⟩
  else none

/-- Deserialize `OpenRouterMessage`. -/
def decodeORMessage (j : Json) : Option OpenRouterMessage :=
  if j.isObj then do
    let role ← getReqField j "role".data Json.asStr
    let content ← j.get "content".data
    let name ← getOptField j "name".data Json.asStr
    let tool_calls ← getOptField j "tool_calls".data (decodeList decodeORToolCall)
    let tool_call_id ← getOptField j "tool_call_id".data Json.asStr
    pure ⟨role, content, name, tool_calls, tool_call_id⟩
  else none

/-- Deserialize `OpenRouterChoice`. -/
def decodeORChoice (j : Json) : Option OpenRouterChoice :=
  if j.isObj then do
    let index ← getReqField j "index".data Json.asNat
    let message ← getOptField j "message".data decodeORMessage
    let delta ← getOptField j "delta".data decodeORMessage
    let finish_reason ← getOptField j "finish_reason".data Json.asStr
    pure ⟨index, message, delta, finish_reason⟩
  else none

/-- Deserialize `OpenRouterUsage`. -/
def decodeORUsage (j : Json) : Option OpenRouterUsage :=
  if j.isObj then do
    let pt ← getReqField j "prompt_tokens".data Json.asNat
    let ct ← getReqField j "completion_tokens".data Json.asNat
    let tt ← getReqField j "total_tokens".data Json.asNat
    pure ⟨pt, ct, tt⟩
  else none

/-- Deserialize `OpenRouterResponse`. -/
def decodeORResponse (j : Json) : Option OpenRouterResponse :=
  if j.isObj then do
    let id ← getReqField j "id".data Json.asStr
    let object ← getReqField j "object".data Json.asStr
    let created ← getReqField j "created".data Json.asNat
    let model ← getReqField j "model".data Json.asStr
    let choices ← getReqField j "choices".data (decodeList decodeORChoice)
    let usage ← getOptField j "usage".data decodeORUsage
    pure ⟨id, object, created, model, choices, usage⟩
  else none

/-! ## OpenRouter stream processor (src/providers/openrouter/client.rs)

The processor owns four fields; only the `while` loop of `process_chunk`
touches `buffer`, so the record-decoding part of the state is factored into
`ORDecodeState` (the remaining three fields) and the loop reassembles the
full processor after each record. -/

/-- `openrouter::client::StreamEvent`. -/
inductive StreamEvent where
  | Content (s : Str)
  | ToolCall (id : Str) (name : Str) (arguments : Str)
  | Done
  | Usage (u : TokenUsage)

/-- `OpenRouterStreamProcessor` state. -/
structure OpenRouterStreamProcessor where
  buffer : Str
  accumulating_tool_args : List (Nat × Str)
  tool_call_info : List (Nat × (Str × Str))
  usage : Option TokenUsage

/-- `OpenRouterStreamProcessor::new`. -/
def OpenRouterStreamProcessor.new : OpenRouterStreamProcessor :=
  ⟨[], [], [], none⟩

/-- The buffer-free part of the processor state, transformed by record
decoding. -/
structure ORDecodeState where
  accumulating_tool_args : List (Nat × Str)
  tool_call_info : List (Nat × (Str × Str))
  usage : Option TokenUsage

/-- Project the decoding part of the processor state. -/
def OpenRouterStreamProcessor.core (st : OpenRouterStreamProcessor) : ORDecodeState :=
  ⟨st.accumulating_tool_args, st.tool_call_info, st.usage⟩

/-- Reassemble the processor from a buffer and a decoding state. -/
def withCore (buffer : Str) (c : ORDecodeState) : OpenRouterStreamProcessor :=
  ⟨buffer, c.accumulating_tool_args, c.tool_call_info, c.usage⟩

/-- First step of the tool-call loop in `process_chunk` (client.rs
lines 102–109): store the id/name pair whenever the fragment carries an id
together with a function name (an unconditional `HashMap::insert`). -/
def orStoreInfo (st : ORDecodeState) (index : Nat)
    (tc : OpenRouterToolCall) : ORDecodeState :=
  match tc.id, tc.function with
  | some id, some f =>
    match f.name with
    | some name =>
      { st with tool_call_info := HMap.insert index (id, name) st.tool_call_info }
    | none => st
  | _, _ => st

/-- Second step of the tool-call loop (client.rs lines 111–144): append the
argument chunk and emit the completed call the moment the accumulated
buffer parses. -/
def orHandleArgs (st : ORDecodeState) (index : Nat)
    (tc : OpenRouterToolCall) : ORDecodeState × List StreamEvent :=
  match tc.function with
  | some f =>
    match f.arguments with
    | some args =>
      let accumulated := (HMap.get index st.accumulating_tool_args).getD [] ++ args
      let st := { st with
        accumulating_tool_args := HMap.insert index accumulated st.accumulating_tool_args }
      match parseJson accumulated with
      | some _ =>
        match HMap.get index st.tool_call_info with
        | some info =>
          ({ st with
              tool_call_info := HMap.remove index st.tool_call_info,
              accumulating_tool_args := HMap.remove index st.accumulating_tool_args },
           [.ToolCall info.1 info.2 accumulated])
        | none =>
          match tc.id with
          | some id =>
            ({ st with
                accumulating_tool_args := HMap.remove index st.accumulating_tool_args },
             [.ToolCall id (f.name.getD []) accumulated])
          | none =>
            ({ st with
                accumulating_tool_args := HMap.remove index st.accumulating_tool_args },
             [])
      | none => (st, [])
    | none => (st, [])
  | none => (st, [])

/-- One iteration of the tool-call loop in `process_chunk` (client.rs
lines 100–145) for the fragment at enumerate position `index`. -/
def orProcessToolFragment (st : ORDecodeState) (index : Nat)
    (tc : OpenRouterToolCall) : ORDecodeState × List StreamEvent :=
  orHandleArgs (orStoreInfo st index tc) index tc

/-- The `for (index, tool_call) in tool_calls.iter().enumerate()` loop. -/
def orProcessToolFragmentsFrom (st : ORDecodeState) (index : Nat) :
    List OpenRouterToolCall → ORDecodeState × List StreamEvent
  | [] => (st, [])
  | tc :: rest =>
    let r1 := orProcessToolFragment st index tc
    let r2 := orProcessToolFragmentsFrom r1.1 (index + 1) rest
    (r2.1, r1.2 ++ r2.2)

/-- Handling of one successfully decoded `OpenRouterResponse`
(client.rs lines 74–158): usage first, then the first choice's delta
content and tool fragments, then a `Done` event when `finish_reason`
is non-empty. -/
def orProcessResponse (st : ORDecodeState)
    (response : OpenRouterResponse) : ORDecodeState × List StreamEvent :=
  let ru :=
    match response.usage with
    | some u =>
      let tu : TokenUsage := ⟨some u.prompt_tokens, some u.completion_tokens, some u.total_tokens⟩
      ({ st with usage := some tu }, [StreamEvent.Usage tu])
    | none => (st, [])
  let st := ru.1
  match response.choices.head? with
  | some choice =>
    let contentEvents :=
      match choice.delta with
      | some delta =>
        match delta.content.asStr with
        | some s => if s ≠ [] then [StreamEvent.Content s] else []
        | none => []
      | none => []
    let rt :=
      match choice.delta with
      | some delta =>
        match delta.tool_calls with
        | some tcs => orProcessToolFragmentsFrom st 0 tcs
        | none => (st, [])
      | none => (st, [])
    let doneEvents :=
      match choice.finish_reason with
      | some fr => if fr ≠ [] then [StreamEvent.Done] else []
      | none => []
    (rt.1, ru.2 ++ contentEvents ++ rt.2 ++ doneEvents)
  | none => (st, ru.2)

/-- Handling of one `data: ` payload: a record that fails to decode as
`OpenRouterResponse` is skipped (client.rs lines 160–162). -/
def orProcessData (st : ORDecodeState) (data : Str) :
    ORDecodeState × List StreamEvent :=
  match (parseJson data).bind decodeORResponse with
  | some resp => orProcessResponse st resp
  | none => (st, [])

/-- The blank-line separator of the SSE grammar. -/
def nnSep : Str := "\n\n".data

/-- The `while let Some(event_end) = self.buffer.find("\n\n")` loop of
`process_chunk`; the third component records whether the loop exited via
the `[DONE]` `break`. -/
def orDrainLoop : Nat → OpenRouterStreamProcessor →
    OpenRouterStreamProcessor × List StreamEvent × Bool
  | 0, st => (st, [], false)
  | Nat.succ fuel, st =>
    match splitFirst nnSep st.buffer with
    | none => (st, [], false)
    | some p =>
      let event_data := rustTrim p.1
      let st := { st with buffer := p.2 }
      if event_data.head? = some ':' then orDrainLoop fuel st
      else
        match dropLit "data: ".data event_data with
        | none => orDrainLoop fuel st
        | some data =>
          if data = "[DONE]".data then (st, [StreamEvent.Done], true)
          else
            let r1 := orProcessData st.core data
            let r2 := orDrainLoop fuel (withCore st.buffer r1.1)
            (r2.1, r1.2 ++ r2.2.1, r2.2.2)

/-- Drain all complete SSE events from the buffer (adequate fuel). -/
def orDrain (st : OpenRouterStreamProcessor) :
    OpenRouterStreamProcessor × List StreamEvent × Bool :=
  orDrainLoop st.buffer.length st

/-- `OpenRouterStreamProcessor::process_chunk`. -/
def OpenRouterStreamProcessor.process_chunk (st : OpenRouterStreamProcessor)
    (chunk : Str) : OpenRouterStreamProcessor × List StreamEvent :=
  let r := orDrain { st with buffer := st.buffer ++ chunk }
  (r.1, r.2.1)

/-- Sequential feeding of several transport chunks through
`process_chunk`, concatenating the emitted events. -/
def orFeedAll (st : OpenRouterStreamProcessor) :
    List Str → OpenRouterStreamProcessor × List StreamEvent
  | [] => (st, [])
  | c :: cs =>
    let r := OpenRouterStreamProcessor.process_chunk st c
    let r2 := orFeedAll r.1 cs
    (r2.1, r.2 ++ r2.2)

/-- The `StreamEvent → ChatStreamItem` mapping of
`OpenRouterClient::send_chat_request` (client.rs lines 545–591).  The
usage attached to the terminal item comes from a separate network
request (`get_usage_estimate`), here a parameter. -/
def streamEventToItem (doneUsage : Option TokenUsage) :
    StreamEvent → ChatStreamItem
  | .Content c => ⟨c, none, false, none⟩
  | .ToolCall id name args =>
    ⟨[], some [⟨some id, ⟨name, (parseJson args).getD Json.null⟩⟩], false, none⟩
  | .Usage u => ⟨[], none, false, some u⟩
  | .Done => ⟨[], none, true, doneUsage⟩

/-! ## OpenAI wire records (src/providers/openai/types.rs) -/

/-- `OpenAIFunction` (streaming fragment: optional name, optional
argument-string chunk). -/
structure OpenAIFunction where
  name : Option Str
  arguments : Option Str

/-- `OpenAIToolCall` (the `function` field is required). -/
structure OpenAIToolCall where
  id : Option Str
  call_type : Option Str
  function : OpenAIFunction

/-- `OpenAIMessage` (every field optional; also the shape of a `delta`). -/
structure OpenAIMessage where
  role : Option Str
  content : Option Json
  tool_calls : Option (List OpenAIToolCall)
  tool_call_id : Option Str

/-- `OpenAIUsage`. -/
structure OpenAIUsage where
  prompt_tokens : Nat
  completion_tokens : Nat
  total_tokens : Nat

/-- `OpenAIChoice`. -/
structure OpenAIChoice where
  index : Nat
  message : Option OpenAIMessage
  delta : Option OpenAIMessage
  finish_reason : Option Str

/-- `OpenAIStreamChunk`. -/
structure OpenAIStreamChunk where
  id : Str
  object : Str
  created : Nat
  model : Str
  choices : List OpenAIChoice
  usage : Option OpenAIUsage

/-- Deserialize `OpenAIFunction`. -/
def decodeOAFunction (j : Json) : Option OpenAIFunction :=
  if j.isObj then do
    let name ← getOptField j "name".data Json.asStr
    let arguments ← getOptField j "arguments".data Json.asStr
    pure ⟨name, arguments⟩
  else none

/-- Deserialize `OpenAIToolCall`. -/
def decodeOAToolCall (j : Json) : Option OpenAIToolCall :=
  if j.isObj then do
    let id ← getOptField j "id".data Json.asStr
    let ct ← getOptField j "type".data Json.asStr
    let function ← getReqField j "function".data decodeOAFunction
    pure ⟨id, ct, function⟩
  else none

/-- Deserialize `OpenAIMessage`. -/
def decodeOAMessage (j : Json) : Option OpenAIMessage :=
  if j.isObj then do
    let role ← getOptField j "role".data Json.asStr
    let content ← getOptField j "content".data (fun v => some v)
    let tool_calls ← getOptField j "tool_calls".data (decodeList decodeOAToolCall)
    let tool_call_id ← getOptField j "tool_call_id".data Json.asStr
    pure ⟨role, content, tool_calls, tool_call_id⟩
  else none

/-- Deserialize `OpenAIUsage`. -/
def decodeOAUsage (j : Json) : Option OpenAIUsage :=
  if j.isObj then do
    let pt ← getReqField j "prompt_tokens".data Json.asNat
    let ct ← getReqField j "completion_tokens".data Json.asNat
    let tt ← getReqField j "total_tokens".data Json.asNat
    pure ⟨pt, ct, tt⟩
  else none

/-- Deserialize `OpenAIChoice`. -/
def decodeOAChoice (j : Json) : Option OpenAIChoice :=
  if j.isObj then do
    let index ← getReqField j "index".data Json.asNat
    let message ← getOptField j "message".data decodeOAMessage
    let delta ← getOptField j "delta".data decodeOAMessage
    let finish_reason ← getOptField j "finish_reason".data Json.asStr
    pure ⟨index, message, delta, finish_reason⟩
  else none

/-- Deserialize `OpenAIStreamChunk`. -/
def decodeOAStreamChunk (j : Json) : Option OpenAIStreamChunk :=
  if j.isObj then do
    let id ← getReqField j "id".data Json.asStr
    let object ← getReqField j "object".data Json.asStr
    let created ← getReqField j "created".data Json.asNat
    let model ← getReqField j "model".data Json.asStr
    let choices ← getReqField j "choices".data (decodeList decodeOAChoice)
    let usage ← getOptField j "usage".data decodeOAUsage
    pure ⟨id, object, created, model, choices, usage⟩
  else none

/-! ## OpenAI stream processor (src/providers/openai/client.rs)

The model covers the synchronous decoding state of `OpenAIStreamProcessor`;
the transport handle and the model string used only for dollar-cost pricing
(floating point) are omitted. -/

/-- `OpenAIStreamProcessor` decoding state. -/
structure OpenAIStreamProcessor where
  accumulated_content : Str
  accumulated_tool_calls : List (Nat × ToolCall)
  accumulating_tool_args : List (Nat × Str)
  buffer : Str
  done : Bool
  usage : Option TokenUsage

/-- `OpenAIStreamProcessor::new`. -/
def OpenAIStreamProcessor.new : OpenAIStreamProcessor :=
  ⟨[], [], [], [], false, none⟩

/-- Result of one `poll_next` step triggered by a transport chunk.
`parseError` models `Poll::Ready(Some(Err(format!("JSON parse error: …"))))`
and carries the offending payload in place of serde's message text;
`pending` models the loop continuing to await more transport bytes. -/
inductive OAPoll where
  | item (i : ChatStreamItem)
  | parseError (record : Str)
  | pending

/-- Rust `str::lines`: split on `'\n'`, drop a final empty piece, strip one
trailing `'\r'` per line. -/
def rustLines (s : Str) : List Str :=
  match s with
  | [] => []
  | _ =>
    let parts := splitOnChar '\n' s
    let parts := if parts.getLast? = some [] then parts.dropLast else parts
    parts.map (fun l => if l.getLast? = some '\r' then l.dropLast else l)

/-- Entry creation of the per-fragment update (client.rs lines 455–464):
the entry is inserted only when the key is absent, taking the id as-is and
the name with `unwrap_or_default`. -/
def oaEnsureEntry (st : OpenAIStreamProcessor) (i : Nat)
    (tc : OpenAIToolCall) : OpenAIStreamProcessor :=
  if ¬ HMap.containsKey i st.accumulated_tool_calls then
    { st with accumulated_tool_calls :=
        (HMap.insert i ⟨tc.id, ⟨tc.function.name.getD [], Json.null⟩⟩
          st.accumulated_tool_calls) }
  else st

/-- Argument accumulation of the per-fragment update (client.rs
lines 466–472). -/
def oaAppendArgs (st : OpenAIStreamProcessor) (i : Nat)
    (tc : OpenAIToolCall) : OpenAIStreamProcessor :=
  match tc.function.arguments with
  | some args =>
    if args ≠ [] then
      { st with accumulating_tool_args :=
          (HMap.insert i ((HMap.get i st.accumulating_tool_args).getD [] ++ args)
            st.accumulating_tool_args) }
    else st
  | none => st

/-- Name update of the per-fragment update (client.rs lines 474–481):
a non-empty provided name overwrites the stored one. -/
def oaUpdateName (st : OpenAIStreamProcessor) (i : Nat)
    (tc : OpenAIToolCall) : OpenAIStreamProcessor :=
  match tc.function.name with
  | some name =>
    if name ≠ [] then
      match HMap.get i st.accumulated_tool_calls with
      | some entry =>
        { st with accumulated_tool_calls :=
            (HMap.insert i { entry with function := { entry.function with name := name } }
              st.accumulated_tool_calls) }
      | none => st
    else st
  | none => st

/-- Id update of the per-fragment update (client.rs lines 483–490):
a non-empty provided id overwrites the stored one. -/
def oaUpdateId (st : OpenAIStreamProcessor) (i : Nat)
    (tc : OpenAIToolCall) : OpenAIStreamProcessor :=
  match tc.id with
  | some id =>
    if id ≠ [] then
      match HMap.get i st.accumulated_tool_calls with
      | some entry =>
        { st with accumulated_tool_calls :=
            (HMap.insert i { entry with id := some id } st.accumulated_tool_calls) }
      | none => st
    else st
  | none => st

/-- The per-fragment tool-call update of `poll_next` (client.rs
lines 454–491): create the entry if absent, append the argument chunk,
then overwrite name and id whenever a non-empty value is provided. -/
def oaProcessToolFragment (st : OpenAIStreamProcessor) (i : Nat)
    (tc : OpenAIToolCall) : OpenAIStreamProcessor :=
  oaUpdateId (oaUpdateName (oaAppendArgs (oaEnsureEntry st i tc) i tc) i tc) i tc

/-- The `for (i, tool_call) in tool_calls.iter().enumerate()` loop. -/
def oaProcessToolFragmentsFrom (st : OpenAIStreamProcessor) (i : Nat) :
    List OpenAIToolCall → OpenAIStreamProcessor
  | [] => st
  | tc :: rest => oaProcessToolFragmentsFrom (oaProcessToolFragment st i tc) (i + 1) rest

/-- Handling of one successfully decoded `OpenAIStreamChunk` (client.rs
lines 429–494); returns the new state, the text appended to the local
`accumulated_content`, and whether the delta carried tool calls. -/
def oaProcessStreamChunk (st : OpenAIStreamProcessor)
    (chunk : OpenAIStreamChunk) : OpenAIStreamProcessor × Str × Bool :=
  let st :=
    match chunk.usage with
    | some u =>
      { st with usage := some ⟨some u.prompt_tokens, some u.completion_tokens,
                               some u.total_tokens⟩ }
    | none => st
  match chunk.choices.head? with
  | some choice =>
    match choice.delta with
    | some delta =>
      let text := (delta.content.bind Json.asStr).getD []
      let st := { st with accumulated_content := st.accumulated_content ++ text }
      match delta.tool_calls with
      | some tcs => (oaProcessToolFragmentsFrom st 0 tcs, text, true)
      | none => (st, text, false)
    | none => (st, [], false)
  | none => (st, [], false)

/-- The terminal tool-call assembly shared by the `[DONE]` arm (client.rs
lines 402–418) and the end-of-transport arm (lines 580–596): every pending
entry is emitted; the accumulated argument buffer replaces the call's
arguments only when it is non-empty and parses.  (Rust iterates a cloned
`HashMap` in unspecified order; the model iterates in list order, and the
theorems about this list are stated via membership.) -/
def oaBuildFinalToolCalls (st : OpenAIStreamProcessor) : Option (List ToolCall) :=
  if st.accumulated_tool_calls.isEmpty then none
  else
    some (st.accumulated_tool_calls.map (fun p =>
      match HMap.get p.1 st.accumulating_tool_args with
      | some args =>
        if args ≠ [] then
          match parseJson args with
          | some v => { p.2 with function := { p.2.function with arguments := v } }
          | none => p.2
        else p.2
      | none => p.2))

/-- Outcome of scanning the lines of one SSE event: an early `return`
(`[DONE]` item or parse error) or continuation with the running local
content and tool-call flag. -/
inductive OALineOutcome where
  | early (st : OpenAIStreamProcessor) (r : OAPoll)
  | cont (st : OpenAIStreamProcessor) (acc : Str) (hasTC : Bool)

/-- The `for line in event.lines()` loop of `poll_next` (client.rs
lines 396–501). -/
def oaProcessEventLines (st : OpenAIStreamProcessor) (acc : Str) (hasTC : Bool) :
    List Str → OALineOutcome
  | [] => .cont st acc hasTC
  | line :: rest =>
    match dropLit "data: ".data line with
    | none => oaProcessEventLines st acc hasTC rest
    | some json_str =>
      if json_str = "[DONE]".data then
        let st := { st with done := true }
        .early st (.item ⟨[], oaBuildFinalToolCalls st, true, st.usage⟩)
      else
        match (parseJson json_str).bind decodeOAStreamChunk with
        | some chunk =>
          let r := oaProcessStreamChunk st chunk
          oaProcessEventLines r.1 (acc ++ r.2.1) (hasTC || r.2.2) rest
        | none => .early st (.parseError json_str)

/-- The `while let Some(event_end) = self.buffer.find("\n\n")` loop of
`poll_next`, followed by the end-of-loop emission check (client.rs
lines 391–512). -/
def oaDrainEventsLoop : Nat → OpenAIStreamProcessor → Str → Bool →
    OpenAIStreamProcessor × OAPoll
  | 0, st, acc, hasTC =>
    if acc ≠ [] ∨ hasTC then (st, .item ⟨acc, none, false, none⟩) else (st, .pending)
  | Nat.succ fuel, st, acc, hasTC =>
    match splitFirst nnSep st.buffer with
    | none =>
      if acc ≠ [] ∨ hasTC then (st, .item ⟨acc, none, false, none⟩) else (st, .pending)
    | some p =>
      let st := { st with buffer := p.2 }
      match oaProcessEventLines st acc hasTC (rustLines p.1) with
      | .early st' r => (st', r)
      | .cont st' acc' hasTC' => oaDrainEventsLoop fuel st' acc' hasTC'

/-- One `poll_next` step upon arrival of a transport chunk. -/
def oaProcessChunk (st : OpenAIStreamProcessor) (chunk : Str) :
    OpenAIStreamProcessor × OAPoll :=
  let st := { st with buffer := st.buffer ++ chunk }
  oaDrainEventsLoop st.buffer.length st [] false

/-- Argument-only accumulation used by the first leftover-buffer pass of the
end-of-transport arm (client.rs lines 536–543). -/
def oaAccumulateArgsOnly (st : OpenAIStreamProcessor) (i : Nat)
    (tc : OpenAIToolCall) : OpenAIStreamProcessor :=
  match tc.function.arguments with
  | some args =>
    if args ≠ [] then
      { st with accumulating_tool_args :=
          (HMap.insert i ((HMap.get i st.accumulating_tool_args).getD [] ++ args)
            st.accumulating_tool_args) }
    else st
  | none => st

/-- Enumerated fold of `oaAccumulateArgsOnly`. -/
def oaAccumulateArgsOnlyFrom (st : OpenAIStreamProcessor) (i : Nat) :
    List OpenAIToolCall → OpenAIStreamProcessor
  | [] => st
  | tc :: rest => oaAccumulateArgsOnlyFrom (oaAccumulateArgsOnly st i tc) (i + 1) rest

/-- The `Poll::Ready(None)` end-of-transport arm of `poll_next` (client.rs
lines 519–603): a best-effort argument pass and a usage pass over the
leftover buffer, then the terminal item. -/
def oaFinishStream (st : OpenAIStreamProcessor) : OpenAIStreamProcessor × OAPoll :=
  let st := (rustLines st.buffer).foldl (fun st line =>
    match dropLit "data: ".data line with
    | none => st
    | some json_str =>
      if json_str = "[DONE]".data then st
      else if json_str ≠ [] then
        match (parseJson json_str).bind decodeOAStreamChunk with
        | some chunk =>
          match chunk.choices.head? with
          | some choice =>
            match choice.delta with
            | some delta =>
              match delta.tool_calls with
              | some tcs => oaAccumulateArgsOnlyFrom st 0 tcs
              | none => st
            | none => st
          | none => st
        | none => st
      else st) st
  let st := (rustLines st.buffer).foldl (fun st line =>
    match dropLit "data: ".data line with
    | none => st
    | some json_str =>
      if json_str ≠ "[DONE]".data ∧ json_str ≠ [] then
        match (parseJson json_str).bind decodeOAStreamChunk with
        | some chunk =>
          match chunk.usage with
          | some u =>
            { st with usage := some ⟨some u.prompt_tokens, some u.completion_tokens,
                                     some u.total_tokens⟩ }
          | none => st
        | none => st
      else st) st
  let st := { st with done := true }
  (st, .item ⟨[], oaBuildFinalToolCalls st, true, st.usage⟩)

/-! ## Ollama stream decoding (src/providers/ollama/client.rs lines 330–364)

Each transport chunk is split on `'\n'` in isolation — the Ollama path keeps
no buffer between chunks.  A line that fails to deserialize is skipped with a
diagnostic (`eprintln`) and contributes nothing. -/

/-- The `ChatStreamItem` built from one decoded Ollama record.  (The
captured `core/types.rs` has no `usage` field; the unified item carries
`none` here.) -/
def ollamaChatItemOfResponse (cr : ChatResponse) : ChatStreamItem :=
  ⟨cr.message.content, cr.message.tool_calls, cr.done, none⟩

/-- The per-chunk body of `send_chat_request_stream_with_options`. -/
def ollamaProcessChunk (chunk : Str) : List ChatStreamItem :=
  (splitOnChar '\n' chunk).filterMap (fun line =>
    if line = [] then none
    else ((parseJson line).bind decodeChatResponse).map ollamaChatItemOfResponse)

/-! ## Fallback protocol engine (src/core/fallback.rs) -/

/-- The opening invocation marker. -/
def tagOpen : Str := "<tool_call>".data

/-- The closing invocation marker. -/
def tagClose : Str := "</tool_call>".data

/-- The captures of the scan `(?s)<tool_call>(.*?)</tool_call>`
(leftmost, non-greedy, non-overlapping). -/
def toolCallCaptures : Nat → Str → List Str
  | 0, _ => []
  | Nat.succ fuel, s =>
    match splitFirst tagOpen s with
    | none => []
    | some p =>
      match splitFirst tagClose p.2 with
      | none => []
      | some q => q.1 :: toolCallCaptures fuel q.2

/-- `replace_all` of `(?s)<tool_call>.*?</tool_call>` with the empty
string. -/
def removeToolCallSpans : Nat → Str → Str
  | 0, s => s
  | Nat.succ fuel, s =>
    match splitFirst tagOpen s with
    | none => s
    | some p =>
      match splitFirst tagClose p.2 with
      | none => s
      | some q => p.1 ++ removeToolCallSpans fuel q.2

/-- Parsing of one capture: trim it, parse it as JSON, and require
`function.name` (a string) and `function.arguments`; fallback calls carry
no id (fallback.rs lines 30–44). -/
def parseInnerToolCall (inner : Str) : Option ToolCall :=
  let json_content := rustTrim inner
  match parseJson json_content with
  | some parsed =>
    match ((parsed.get "function".data).bind (fun f => f.get "name".data)).bind Json.asStr,
          (parsed.get "function".data).bind (fun f => f.get "arguments".data) with
    | some name, some arguments => some ⟨none, ⟨name, arguments⟩⟩
    | _, _ => none
  | none => none

/-- `FallbackToolHandler::parse_fallback_tool_calls`. -/
def parse_fallback_tool_calls (content : Str) : Option (List ToolCall) :=
  let all_tool_calls := (toolCallCaptures content.length content).filterMap parseInnerToolCall
  if all_tool_calls.isEmpty then none else some all_tool_calls

/-- `replace_all` of the dangling-marker scan `<tool_call>\s*$` (a match
necessarily extends to the end of the text, so leftmost-first replacement
keeps everything before the matched opening tag). -/
def stripDanglingToolCall : Str → Str
  | [] => []
  | c :: rest =>
    if tagOpen.isPrefixOf (c :: rest) ∧ ((c :: rest).drop tagOpen.length).all Char.isWhitespace
    then []
    else c :: stripDanglingToolCall rest

/-- The generic acknowledgement substituted for a near-empty visible text. -/
def ackText : Str := "I\x27ll help you with that.".data

/-- `FallbackToolHandler::process_fallback_response`. -/
def process_fallback_response (content : Str) : Str × Option (List ToolCall) :=
  match parse_fallback_tool_calls content with
  | some tool_calls =>
    let cleaned_content := rustTrim (removeToolCallSpans content.length content)
    let final_content :=
      if utf8Len cleaned_content < 10 then ackText else cleaned_content
    (final_content, some tool_calls)
  | none =>
    (rustTrim (stripDanglingToolCall content), none)

/-! ## Client session state (fallback-mode decisions, tool dispatch)

The network probes (`supports_tool_calls`) are external collaborators and
appear as explicit inputs: `some b` is a successful probe answering `b`,
`none` is the transport-error path. -/

/-- `OllamaClient` session state (transport handle omitted). -/
structure OllamaClient where
  endpoint : Str
  model : Str
  tools : List Tool
  fallback_mode : Bool

/-- `OllamaClient::new`. -/
def OllamaClient.new (endpoint model : Str) : OllamaClient :=
  ⟨endpoint, model, [], false⟩

/-- `OllamaClient::add_tool`: push the tool; on the first tool only, probe
native support and latch `fallback_mode` when the probe answers `false`.
A probe error (`none`) returns early with the tool already pushed. -/
def OllamaClient.add_tool (c : OllamaClient) (tool : Tool) (probe : Option Bool) :
    OllamaClient :=
  let c := { c with tools := c.tools ++ [tool] }
  if c.tools.length = 1 then
    match probe with
    | some supports_native =>
      if supports_native then c else { c with fallback_mode := true }
    | none => c
  else c

/-- `OllamaClient::is_fallback_mode`. -/
def OllamaClient.is_fallback_mode (c : OllamaClient) : Bool := c.fallback_mode

/-- `OllamaClient::handle_tool_calls` (client.rs lines 484–510). -/
def OllamaClient.handle_tool_calls (c : OllamaClient) : List ToolCall → List Message
  | [] => []
  | tool_call :: rest =>
    match c.tools.find? (fun t => t.name = tool_call.function.name) with
    | some tool =>
      let result := tool.function tool_call.function.arguments
      let rc :=
        if c.fallback_mode then
          ("user".data,
           "Tool response from ".data ++ tool_call.function.name ++ ": ".data ++ result)
        else ("tool".data, result)
      ⟨rc.1, rc.2, none, none⟩ :: c.handle_tool_calls rest
    | none => c.handle_tool_calls rest

/-- `OpenAIClient` session state (transport handle omitted). -/
structure OpenAIClient where
  api_key : Str
  model : Str
  tools : List Tool

/-- `OpenAIClient::is_fallback_mode` (always native). -/
def OpenAIClient.is_fallback_mode (_ : OpenAIClient) : Bool := false

/-- `OpenAIClient::handle_tool_calls` (client.rs lines 295–319). -/
def OpenAIClient.handle_tool_calls (c : OpenAIClient) : List ToolCall → List Message
  | [] => []
  | tool_call :: rest =>
    match c.tools.find? (fun t => t.name = tool_call.function.name) with
    | some tool =>
      let result := tool.function tool_call.function.arguments
      let tool_id := tool_call.id.getD "unknown".data
      ⟨"tool".data, "TOOL_RESULT:".data ++ tool_id ++ ":".data ++ result, none, none⟩ ::
        c.handle_tool_calls rest
    | none => c.handle_tool_calls rest

/-- `OpenRouterClient` session state (transport handle omitted). -/
structure OpenRouterClient where
  api_key : Str
  model : Str
  base_url : Str
  tools : List Tool

/-- `OpenRouterClient::add_tool` (no probe, no stored flag). -/
def OpenRouterClient.add_tool (c : OpenRouterClient) (tool : Tool) : OpenRouterClient :=
  { c with tools := c.tools ++ [tool] }

/-- `OpenRouterClient::is_fallback_mode`: no stored flag — with no tools the
answer is `false`, otherwise the backend is re-probed on every call
(`!supports_tool_calls().await.unwrap_or(false)`). -/
def OpenRouterClient.is_fallback_mode (c : OpenRouterClient) (probe : Option Bool) : Bool :=
  if c.tools.isEmpty then false
  else !(probe.getD false)

/-- A concrete registered tool used by closed witnesses. -/
def dummyTool : Tool := ⟨"f".data, "d".data, Json.null, fun _ => "ok".data⟩

/-! ## Concrete wire inputs used by closed theorems and witnesses -/

/-- C1 failing input: an SSE payload whose record carries
`finish_reason = "stop"`, followed by the `[DONE]` sentinel. -/
def c1payload : Str :=
  ("data: \x7b\"id\":\"1\",\"object\":\"chat.completion.chunk\",\"created\":1,\"model\":\"m\"," ++
   "\"choices\":[\x7b\"index\":0,\"delta\":\x7b\"role\":\"assistant\",\"content\":\"hi\"\x7d," ++
   "\"finish_reason\":\"stop\"\x7d]\x7d\n\ndata: [DONE]\n\n").data

/-- C2 input: a valid record, a syntactically invalid record, and another
valid record, in one OpenAI transport chunk. -/
def c2chunk : Str :=
  ("data: \x7b\"id\":\"1\",\"object\":\"c\",\"created\":1,\"model\":\"m\"," ++
   "\"choices\":[\x7b\"index\":0,\"delta\":\x7b\"content\":\"A\"\x7d\x7d]\x7d\n\n" ++
   "data: \x7bgarbage\n\n" ++
   "data: \x7b\"id\":\"1\",\"object\":\"c\",\"created\":1,\"model\":\"m\"," ++
   "\"choices\":[\x7b\"index\":0,\"delta\":\x7b\"content\":\"B\"\x7d\x7d]\x7d\n\n").data

/-- C3 counterexample input: one complete Ollama wire line. -/
def c3line : Str :=
  "\x7b\"message\":\x7b\"role\":\"assistant\",\"content\":\"hi\"\x7d,\"done\":false\x7d".data

/-- C4 input: a fragment for position 0 carrying id `"x"` and name `"f"`. -/
def c4chunk1 : Str :=
  ("data: \x7b\"id\":\"1\",\"object\":\"c\",\"created\":1,\"model\":\"m\"," ++
   "\"choices\":[\x7b\"index\":0,\"delta\":\x7b\"tool_calls\":[\x7b\"id\":\"x\"," ++
   "\"function\":\x7b\"name\":\"f\",\"arguments\":\"\"\x7d\x7d]\x7d\x7d]\x7d\n\n").data

/-- C4 input: a later fragment for the same position 0 carrying id `"y"`. -/
def c4chunk2 : Str :=
  ("data: \x7b\"id\":\"1\",\"object\":\"c\",\"created\":1,\"model\":\"m\"," ++
   "\"choices\":[\x7b\"index\":0,\"delta\":\x7b\"tool_calls\":[\x7b\"id\":\"y\"," ++
   "\"function\":\x7b\"arguments\":\"\x7b\x7d\"\x7d\x7d]\x7d\x7d]\x7d\n\n").data

/-- C4: the processor state after both fragments. -/
def c4state : OpenAIStreamProcessor :=
  (oaProcessChunk (oaProcessChunk OpenAIStreamProcessor.new c4chunk1).1 c4chunk2).1

/-- C5 counterexample input: a fragment for position 0 whose argument chunk
is the first half of a JSON object. -/
def c5oaChunk1 : Str :=
  ("data: \x7b\"id\":\"1\",\"object\":\"c\",\"created\":1,\"model\":\"m\"," ++
   "\"choices\":[\x7b\"index\":0,\"delta\":\x7b\"tool_calls\":[\x7b\"id\":\"x\"," ++
   "\"function\":\x7b\"name\":\"f\",\"arguments\":\"\x7b\\\"a\\\":1\"\x7d\x7d]\x7d\x7d]\x7d\n\n").data

/-- C5 counterexample input: the completing second argument fragment, after
which the accumulated buffer parses as valid JSON. -/
def c5oaChunk2 : Str :=
  ("data: \x7b\"id\":\"1\",\"object\":\"c\",\"created\":1,\"model\":\"m\"," ++
   "\"choices\":[\x7b\"index\":0,\"delta\":\x7b\"tool_calls\":[\x7b" ++
   "\"function\":\x7b\"arguments\":\",\\\"b\\\":2\x7d\"\x7d\x7d]\x7d\x7d]\x7d\n\n").data

/-- C8 input: one delta carrying two tool calls — position 0 with arguments
that parse, position 1 with arguments that never parse. -/
def c8chunk : Str :=
  ("data: \x7b\"id\":\"1\",\"object\":\"c\",\"created\":1,\"model\":\"m\"," ++
   "\"choices\":[\x7b\"index\":0,\"delta\":\x7b\"tool_calls\":[" ++
   "\x7b\"id\":\"a\",\"function\":\x7b\"name\":\"good\",\"arguments\":\"\x7b\\\"x\\\":1\x7d\"\x7d\x7d," ++
   "\x7b\"id\":\"b\",\"function\":\x7b\"name\":\"bad\",\"arguments\":\"\x7boops\"\x7d\x7d" ++
   "]\x7d\x7d]\x7d\n\n").data

/-- C8: the processor state holding both pending tool calls. -/
def c8state : OpenAIStreamProcessor :=
  (oaProcessChunk OpenAIStreamProcessor.new c8chunk).1

/-! ## Helper lemmas -/

theorem HMap.get_insert_self (k : Nat) (v : α) :
    ∀ (l : List (Nat × α)), HMap.get k (HMap.insert k v l) = some v := by
  intro l
  induction l with
  | nil => simp [HMap.insert, HMap.get]
  | cons hd tl ih =>
    obtain ⟨k', v'⟩ := hd
    by_cases h : k = k' <;> simp [HMap.insert, HMap.get, h, ih]

theorem splitFirst_eq_some (pat : Str) :
    ∀ (s a b : Str), splitFirst pat s = some (a, b) → s = a ++ pat ++ b := by
  intro s
  induction s with
  | nil =>
    intro a b h
    simp only [splitFirst] at h
    split at h
    · rename_i hp
      obtain rfl : pat = [] := by simpa using List.isPrefixOf_iff_prefix.mp hp
      simp only [Option.some.injEq, Prod.mk.injEq] at h
      obtain ⟨rfl, rfl⟩ := h
      rfl
    · exact Option.noConfusion h
  | cons c rest ih =>
    intro a b h
    simp only [splitFirst] at h
    split at h
    · rename_i hp
      obtain ⟨t, ht⟩ := List.isPrefixOf_iff_prefix.mp hp
      simp only [Option.some.injEq, Prod.mk.injEq] at h
      obtain ⟨rfl, rfl⟩ := h
      rw [← ht, List.drop_left]
      simp
    · match hr : splitFirst pat rest with
      | none => rw [hr] at h; exact Option.noConfusion h
      | some q =>
        rw [hr] at h
        simp at h
        obtain ⟨rfl, rfl⟩ := h
        have := ih q.1 q.2 (by rw [hr])
        simp [this]

theorem splitFirst_append_some (pat : Str) :
    ∀ (s t a b : Str), splitFirst pat s = some (a, b) →
      splitFirst pat (s ++ t) = some (a, b ++ t) := by
  intro s
  induction s with
  | nil =>
    intro t a b h
    simp only [splitFirst] at h
    split at h
    · rename_i hp
      obtain rfl : pat = [] := by simpa using List.isPrefixOf_iff_prefix.mp hp
      simp only [Option.some.injEq, Prod.mk.injEq] at h
      obtain ⟨rfl, rfl⟩ := h
      cases t with
      | nil => simp [splitFirst]
      | cons c r => simp [splitFirst, List.isPrefixOf]
    · exact Option.noConfusion h
  | cons c rest ih =>
    intro t a b h
    have hs := splitFirst_eq_some pat (c :: rest) a b h
    have hlen : pat.length ≤ (c :: rest).length := by
      rw [hs]; simp; omega
    simp only [splitFirst] at h
    split at h
    · rename_i hp
      simp only [Option.some.injEq, Prod.mk.injEq] at h
      obtain ⟨rfl, rfl⟩ := h
      have hp2 : List.isPrefixOf pat (c :: rest ++ t) = true := by
        rw [List.isPrefixOf_iff_prefix]
        exact (List.isPrefixOf_iff_prefix.mp hp).trans
          (by rw [show c :: rest ++ t = (c :: rest) ++ t from rfl]
              exact List.prefix_append _ _)
      have hdrop : List.drop pat.length (c :: (rest ++ t)) =
          List.drop pat.length (c :: rest) ++ t := by
        rw [show (c :: (rest ++ t)) = (c :: rest) ++ t from rfl,
          List.drop_append_of_le_length hlen]
      rw [show (c :: rest) ++ t = c :: (rest ++ t) from rfl]
      simp [splitFirst, hp2, hdrop]
      exact List.isPrefixOf_iff_prefix.mp hp2
    · rename_i hp
      have hp2 : ¬ (List.isPrefixOf pat (c :: rest ++ t) = true) := by
        intro hcon
        apply hp
        rw [List.isPrefixOf_iff_prefix] at hcon ⊢
        have h1 : pat <+: (c :: rest) ++ t := by
          rw [show c :: rest ++ t = (c :: rest) ++ t from rfl] at hcon
          exact hcon
        exact List.prefix_of_prefix_length_le h1 (List.prefix_append _ _) hlen
      match hr : splitFirst pat rest with
      | none => rw [hr] at h; exact Option.noConfusion h
      | some q =>
        rw [hr] at h
        simp at h
        obtain ⟨rfl, rfl⟩ := h
        have hrec := ih t q.1 q.2 (by rw [hr])
        rw [show (c :: rest) ++ t = c :: (rest ++ t) from rfl]
        simp [splitFirst, hp2, hrec]
        exact fun hcon => hp2 (List.isPrefixOf_iff_prefix.mpr hcon)

theorem splitFirst_none_of_append_none (pat s t : Str)
    (h : splitFirst pat (s ++ t) = none) : splitFirst pat s = none := by
  match hr : splitFirst pat s with
  | none => rfl
  | some q =>
    have := splitFirst_append_some pat s t q.1 q.2 (by rw [hr])
    rw [this] at h
    exact Option.noConfusion h

theorem splitFirst_at_self (pat b : Str) : splitFirst pat (pat ++ b) = some ([], b) := by
  cases pat with
  | nil =>
    cases b with
    | nil => simp [splitFirst]
    | cons c r => simp [splitFirst, List.isPrefixOf]
  | cons p pr =>
    rw [List.cons_append]
    have hp : List.isPrefixOf (p :: pr) (p :: (pr ++ b)) = true := by
      rw [List.isPrefixOf_iff_prefix, ← List.cons_append]
      exact List.prefix_append _ _
    simp only [splitFirst]
    rw [if_pos hp, ← List.cons_append, List.drop_left]

theorem splitFirst_cons_ne (p : Char) (pat : Str) (c : Char) (s : Str) (h : c ≠ p) :
    splitFirst (p :: pat) (c :: s) =
      (splitFirst (p :: pat) s).map (fun q => (c :: q.1, q.2)) := by
  have hfalse : List.isPrefixOf (p :: pat) (c :: s) = false := by
    simp only [List.isPrefixOf, Bool.and_eq_false_iff]
    left
    simp [Ne.symm h]
  simp [splitFirst, hfalse]

theorem splitFirst_none_of_no_head (p : Char) (pat : Str) :
    ∀ (s : Str), (∀ c ∈ s, c ≠ p) → splitFirst (p :: pat) s = none := by
  intro s
  induction s with
  | nil => intro _; simp [splitFirst, List.isPrefixOf]
  | cons c rest ih =>
    intro h
    rw [splitFirst_cons_ne p pat c rest (h c (by simp))]
    rw [ih (fun x hx => h x (by simp [hx]))]
    rfl

theorem splitFirst_append_left (p : Char) (pat : Str) :
    ∀ (a s : Str), (∀ c ∈ a, c ≠ p) →
      splitFirst (p :: pat) (a ++ s) =
        (splitFirst (p :: pat) s).map (fun q => (a ++ q.1, q.2)) := by
  intro a
  induction a with
  | nil =>
    intro s _
    match hs : splitFirst (p :: pat) s with
    | none => simp [hs]
    | some q => simp [hs]
  | cons c a' ih =>
    intro s h
    rw [show (c :: a') ++ s = c :: (a' ++ s) from rfl]
    rw [splitFirst_cons_ne p pat c _ (h c (by simp))]
    rw [ih s (fun x hx => h x (by simp [hx]))]
    cases splitFirst (p :: pat) s <;> simp

theorem splitOnChar_of_no_sep (sep : Char) :
    ∀ (s : Str), sep ∉ s → splitOnChar sep s = [s] := by
  intro s
  induction s with
  | nil => intro _; simp [splitOnChar]
  | cons c rest ih =>
    intro h
    have hc : ¬ (c = sep) := fun hcon => h (by simp [hcon])
    have hr := ih (fun hcon => h (by simp [hcon]))
    simp [splitOnChar, hc, hr]

theorem splitOnChar_append (sep : Char) :
    ∀ (a rest : Str), sep ∉ a →
      splitOnChar sep (a ++ sep :: rest) = a :: splitOnChar sep rest := by
  intro a
  induction a with
  | nil => intro rest _; simp [splitOnChar]
  | cons c a' ih =>
    intro rest h
    have hc : ¬ (c = sep) := fun hcon => h (by simp [hcon])
    have hr := ih rest (fun hcon => h (by simp [hcon]))
    rw [show (c :: a') ++ sep :: rest = c :: (a' ++ sep :: rest) from rfl]
    simp only [splitOnChar, hc, if_neg, not_false_iff]
    rw [hr]

/-! ## Claim theorems -/

/-- Claim C9 (amended part): for the Ollama client the fallback-mode flag is
decided only when the first tool is added; once at least one tool is
registered, no further `add_tool` operation (whatever its probe outcome)
and no query changes the flag. -/
theorem c9_ollama_fallback_mode_fixed :
    ∀ (ops : List (Tool × Option Bool)) (c : OllamaClient), c.tools ≠ [] →
      (ops.foldl (fun acc op => acc.add_tool op.1 op.2) c).is_fallback_mode =
        c.is_fallback_mode := by
  intro ops
  induction ops with
  | nil => intro c _; rfl
  | cons op rest ih =>
    intro c hc
    have hstep : c.add_tool op.1 op.2 = { c with tools := c.tools ++ [op.1] } := by
      simp [OllamaClient.add_tool, hc]
    simp only [List.foldl_cons]
    rw [hstep, ih _ (by simp)]
    rfl

/-- Claim C9 witness: a client that entered fallback mode on its first tool
keeps reporting fallback mode after another tool is added with a probe that
would answer `true`. -/
theorem c9_ollama_fallback_mode_fixed_witness :
    ((OllamaClient.new [] []).add_tool dummyTool (some false)).tools ≠ [] ∧
      ([(dummyTool, some true)].foldl (fun acc op => acc.add_tool op.1 op.2)
        ((OllamaClient.new [] []).add_tool dummyTool (some false))).is_fallback_mode =
        ((OllamaClient.new [] []).add_tool dummyTool (some false)).is_fallback_mode :=
  ⟨by simp [OllamaClient.new, OllamaClient.add_tool],
   c9_ollama_fallback_mode_fixed [(dummyTool, some true)] _
     (by simp [OllamaClient.new, OllamaClient.add_tool])⟩

/-- Claim C9 counterexample: the OpenRouter client stores no fallback flag;
`is_fallback_mode` re-probes on every call and its answer also depends on
whether any tool is registered, so the later operation `add_tool` changes
the reported mode (from `false` to `true` here, with the probe behaviour
held fixed), contradicting a once-decided, session-fixed flag. -/
theorem c9_openrouter_mode_not_fixed :
    OpenRouterClient.is_fallback_mode ⟨[], [], [], []⟩ (some false) = false ∧
      OpenRouterClient.is_fallback_mode
        (OpenRouterClient.add_tool ⟨[], [], [], []⟩ dummyTool) (some false) = true :=
  ⟨rfl, rfl⟩

/-- Claim C10: `handle_tool_calls` (Ollama and OpenAI) returns exactly one
response message per call whose function name matches a registered tool, in
input order — the first matching registered tool is executed — and a call
matching no registered tool contributes nothing, with no error. -/
theorem c10_handle_tool_calls_characterization :
    (∀ (c : OllamaClient) (tool_calls : List ToolCall),
      c.handle_tool_calls tool_calls = tool_calls.filterMap (fun tool_call =>
        (c.tools.find? (fun t => t.name = tool_call.function.name)).map (fun tool =>
          if c.fallback_mode then
            ⟨"user".data,
             "Tool response from ".data ++ tool_call.function.name ++ ": ".data ++
               tool.function tool_call.function.arguments, none, none⟩
          else ⟨"tool".data, tool.function tool_call.function.arguments, none, none⟩))) ∧
    (∀ (c : OpenAIClient) (tool_calls : List ToolCall),
      c.handle_tool_calls tool_calls = tool_calls.filterMap (fun tool_call =>
        (c.tools.find? (fun t => t.name = tool_call.function.name)).map (fun tool =>
          ⟨"tool".data,
           "TOOL_RESULT:".data ++ tool_call.id.getD "unknown".data ++ ":".data ++
             tool.function tool_call.function.arguments, none, none⟩))) := by
  constructor
  · intro c tool_calls
    induction tool_calls with
    | nil => rfl
    | cons tc rest ih =>
      simp only [List.filterMap_cons]
      match hf : c.tools.find? (fun t => t.name = tc.function.name) with
      | none => simp [OllamaClient.handle_tool_calls, hf, ih]
      | some tool =>
        by_cases hm : c.fallback_mode <;>
          simp [OllamaClient.handle_tool_calls, hf, ih, hm]
  · intro c tool_calls
    induction tool_calls with
    | nil => rfl
    | cons tc rest ih =>
      simp only [List.filterMap_cons]
      match hf : c.tools.find? (fun t => t.name = tc.function.name) with
      | none => simp [OpenAIClient.handle_tool_calls, hf, ih]
      | some tool => simp [OpenAIClient.handle_tool_calls, hf, ih]

theorem oaEnsureEntry_get_isSome (st : OpenAIStreamProcessor) (i : Nat)
    (tc : OpenAIToolCall) :
    ∃ e, HMap.get i (oaEnsureEntry st i tc).accumulated_tool_calls = some e := by
  unfold oaEnsureEntry
  by_cases h : HMap.containsKey i st.accumulated_tool_calls = true
  · simp only [h, not_true, if_neg, not_false_iff]
    simp only [HMap.containsKey, Option.isSome_iff_exists] at h
    simpa using h
  · simp only [HMap.containsKey] at h
    simp [HMap.containsKey, h, HMap.get_insert_self]

theorem oaAppendArgs_calls (st : OpenAIStreamProcessor) (i : Nat)
    (tc : OpenAIToolCall) :
    (oaAppendArgs st i tc).accumulated_tool_calls = st.accumulated_tool_calls := by
  unfold oaAppendArgs
  split <;> first | rfl | (split <;> rfl)

theorem oaUpdateName_get_isSome (st : OpenAIStreamProcessor) (i : Nat)
    (tc : OpenAIToolCall)
    (h : ∃ e, HMap.get i st.accumulated_tool_calls = some e) :
    ∃ e, HMap.get i (oaUpdateName st i tc).accumulated_tool_calls = some e := by
  unfold oaUpdateName
  split
  · split
    · split
      · exact ⟨_, HMap.get_insert_self i _ _⟩
      · exact h
    · exact h
  · exact h

theorem oaUpdateName_sets (st : OpenAIStreamProcessor) (i : Nat)
    (tc : OpenAIToolCall) (name : Str)
    (hn : tc.function.name = some name) (hne : name ≠ [])
    (h : ∃ e, HMap.get i st.accumulated_tool_calls = some e) :
    ∃ e, HMap.get i (oaUpdateName st i tc).accumulated_tool_calls = some e ∧
      e.function.name = name := by
  obtain ⟨e, he⟩ := h
  unfold oaUpdateName
  simp only [hn, he]
  rw [if_pos hne]
  exact ⟨_, HMap.get_insert_self i _ _, rfl⟩

theorem oaUpdateId_sets (st : OpenAIStreamProcessor) (i : Nat)
    (tc : OpenAIToolCall) (id : Str)
    (hid : tc.id = some id) (hne : id ≠ [])
    (h : ∃ e, HMap.get i st.accumulated_tool_calls = some e) :
    ∃ e, HMap.get i (oaUpdateId st i tc).accumulated_tool_calls = some e ∧
      e.id = some id := by
  obtain ⟨e, he⟩ := h
  unfold oaUpdateId
  simp only [hid, he]
  rw [if_pos hne]
  exact ⟨_, HMap.get_insert_self i _ _, rfl⟩

theorem oaUpdateId_keeps_function (st : OpenAIStreamProcessor) (i : Nat)
    (tc : OpenAIToolCall) (e : ToolCall)
    (he : HMap.get i st.accumulated_tool_calls = some e) :
    ∃ e', HMap.get i (oaUpdateId st i tc).accumulated_tool_calls = some e' ∧
      e'.function = e.function := by
  unfold oaUpdateId
  split
  · split
    · rw [he]
      exact ⟨_, HMap.get_insert_self i _ _, rfl⟩
    · exact ⟨e, he, rfl⟩
  · exact ⟨e, he, rfl⟩

/-- Claim C4 (amended): the id and name kept for a tool-call position are
the LAST non-empty values received — a later fragment carrying a non-empty
id (or name) overwrites the stored one in the OpenAI accumulator, and a
later fragment carrying both an id and a name overwrites the stored pair in
the OpenRouter accumulator. -/
theorem c4_last_wins_semantics :
    (∀ (st : OpenAIStreamProcessor) (i : Nat) (tc : OpenAIToolCall) (id : Str),
      tc.id = some id → id ≠ [] →
      ∃ e, HMap.get i (oaProcessToolFragment st i tc).accumulated_tool_calls = some e ∧
        e.id = some id) ∧
    (∀ (st : OpenAIStreamProcessor) (i : Nat) (tc : OpenAIToolCall) (name : Str),
      tc.function.name = some name → name ≠ [] →
      ∃ e, HMap.get i (oaProcessToolFragment st i tc).accumulated_tool_calls = some e ∧
        e.function.name = name) ∧
    (∀ (st : ORDecodeState) (i : Nat) (tc : OpenRouterToolCall)
        (id name : Str) (f : OpenRouterFunctionCall),
      tc.id = some id → tc.function = some f → f.name = some name →
      f.arguments = none →
      HMap.get i (orProcessToolFragment st i tc).1.tool_call_info = some (id, name)) := by
  refine ⟨?_, ?_, ?_⟩
  · intro st i tc id hid hne
    unfold oaProcessToolFragment
    apply oaUpdateId_sets _ _ _ _ hid hne
    apply oaUpdateName_get_isSome
    rw [oaAppendArgs_calls]
    exact oaEnsureEntry_get_isSome st i tc
  · intro st i tc name hn hne
    unfold oaProcessToolFragment
    have h1 : ∃ e, HMap.get i ((oaAppendArgs (oaEnsureEntry st i tc) i tc)).accumulated_tool_calls = some e := by
      rw [oaAppendArgs_calls]
      exact oaEnsureEntry_get_isSome st i tc
    obtain ⟨e, he, hname⟩ := oaUpdateName_sets _ i tc name hn hne h1
    obtain ⟨e', he', hfun⟩ := oaUpdateId_keeps_function _ i tc e he
    exact ⟨e', he', by rw [hfun, hname]⟩
  · intro st i tc id name f hid hf hn ha
    unfold orProcessToolFragment orStoreInfo orHandleArgs
    simp only [hid, hf, hn, ha]
    simp [HMap.get_insert_self]

/-- Claim C4 witness: a fragment carrying id `"y"` and name `"g"` applied on
top of an arbitrary state — here one already holding id `"x"`, name `"f"`
at position 0 — leaves id `"y"` and name `"g"`. -/
theorem c4_last_wins_semantics_witness :
    ((⟨some "y".data, some "function".data, ⟨some "g".data, none⟩⟩ : OpenAIToolCall).id =
        some "y".data ∧ "y".data ≠ []) ∧
    (∃ e, HMap.get 0 (oaProcessToolFragment
        ⟨[], [(0, ⟨some "x".data, ⟨"f".data, Json.null⟩⟩)], [], [], false, none⟩ 0
        ⟨some "y".data, some "function".data, ⟨some "g".data, none⟩⟩).accumulated_tool_calls =
          some e ∧ e.id = some "y".data) ∧
    (∃ e, HMap.get 0 (oaProcessToolFragment
        ⟨[], [(0, ⟨some "x".data, ⟨"f".data, Json.null⟩⟩)], [], [], false, none⟩ 0
        ⟨some "y".data, some "function".data, ⟨some "g".data, none⟩⟩).accumulated_tool_calls =
          some e ∧ e.function.name = "g".data) ∧
    HMap.get 0 (orProcessToolFragment
        ⟨[], [(0, ("x".data, "f".data))], none⟩ 0
        ⟨some "y".data, some "function".data, some ⟨some "g".data, none⟩⟩).1.tool_call_info =
      some ("y".data, "g".data) :=
  ⟨⟨rfl, by decide⟩,
   c4_last_wins_semantics.1 _ 0 _ "y".data rfl (by decide),
   c4_last_wins_semantics.2.1 _ 0 _ "g".data rfl (by decide),
   c4_last_wins_semantics.2.2 _ 0 _ "y".data "g".data _ rfl rfl rfl rfl⟩

/-- Claim C4 counterexample: feeding id `"x"` then id `"y"` for the same
tool-call position through the OpenAI stream processor yields a final
ToolCall whose id is `"y"`, not the first-received `"x"`. -/
theorem c4_first_wins_refuted :
    ∃ tc, (oaProcessChunk c4state "data: [DONE]\n\n".data).2 =
        OAPoll.item ⟨[], some [tc], true, none⟩ ∧
      tc.id = some "y".data ∧ tc.id ≠ some "x".data :=
  ⟨⟨some "y".data, ⟨"f".data, Json.obj []⟩⟩, rfl, rfl, by decide⟩

/-- Claim C8 (amended): at the terminal batch the OpenAI processor delivers
EVERY pending tool call, never dropping one — a pending call whose
accumulated argument buffer parses is delivered with the parsed arguments,
and one whose buffer still fails to parse is delivered unchanged (with the
arguments it already held, `null` for entries created from fragments)
rather than being dropped. -/
theorem c8_terminal_batch_delivers_all_pending :
    ∀ (st : OpenAIStreamProcessor) (i : Nat) (tc : ToolCall),
      (i, tc) ∈ st.accumulated_tool_calls →
      ∃ (delivered : List ToolCall) (tc' : ToolCall),
        oaBuildFinalToolCalls st = some delivered ∧ tc' ∈ delivered ∧
        tc'.id = tc.id ∧ tc'.function.name = tc.function.name ∧
        ((∃ args v, HMap.get i st.accumulating_tool_args = some args ∧ args ≠ [] ∧
            parseJson args = some v ∧ tc'.function.arguments = v) ∨
          tc'.function.arguments = tc.function.arguments) := by
  intro st i tc hmem
  have hne : st.accumulated_tool_calls.isEmpty = false := by
    cases hlist : st.accumulated_tool_calls with
    | nil => rw [hlist] at hmem; cases hmem
    | cons hd tl => rfl
  unfold oaBuildFinalToolCalls
  simp only [hne, Bool.false_eq_true, if_neg, not_false_iff]
  refine ⟨_, _, rfl, List.mem_map_of_mem _ hmem, ?_⟩
  match hget : HMap.get i st.accumulating_tool_args with
  | none =>
    simp only [hget]
    exact ⟨by trivial, by trivial, Or.inr (by trivial)⟩
  | some args =>
    simp only [hget]
    by_cases hargs : args ≠ []
    · rw [if_pos hargs]
      match hp : parseJson args with
      | some v =>
        simp only [hp]
        exact ⟨by trivial, by trivial,
          Or.inl ⟨args, v, by trivial, hargs, hp, by trivial⟩⟩
      | none =>
        simp only [hp]
        exact ⟨by trivial, by trivial, Or.inr (by trivial)⟩
    · rw [if_neg hargs]
      exact ⟨by trivial, by trivial, Or.inr (by trivial)⟩

/-- Claim C8 witness: a single pending call at position 0 whose buffer is
the unparseable fragment `\x7boops` is still delivered, unchanged. -/
theorem c8_terminal_batch_delivers_all_pending_witness :
    (0, (⟨some "b".data, ⟨"bad".data, Json.null⟩⟩ : ToolCall)) ∈
      ([(0, ⟨some "b".data, ⟨"bad".data, Json.null⟩⟩)] : List (Nat × ToolCall)) ∧
    ∃ (delivered : List ToolCall) (tc' : ToolCall),
      oaBuildFinalToolCalls
          ⟨[], [(0, ⟨some "b".data, ⟨"bad".data, Json.null⟩⟩)],
           [(0, "\x7boops".data)], [], false, none⟩ = some delivered ∧
      tc' ∈ delivered ∧
      tc'.id = some "b".data ∧ tc'.function.name = "bad".data ∧
      ((∃ args v, HMap.get 0 ([(0, "\x7boops".data)] : List (Nat × Str)) = some args ∧
          args ≠ [] ∧ parseJson args = some v ∧ tc'.function.arguments = v) ∨
        tc'.function.arguments = Json.null) :=
  ⟨by simp,
   c8_terminal_batch_delivers_all_pending
     ⟨[], [(0, ⟨some "b".data, ⟨"bad".data, Json.null⟩⟩)],
      [(0, "\x7boops".data)], [], false, none⟩ 0
     ⟨some "b".data, ⟨"bad".data, Json.null⟩⟩ (by simp)⟩

/-- Claim C8 counterexample: a terminal `[DONE]` batch with two pending
calls — position 0 parseable, position 1 with buffer `\x7boops` that never
parses — delivers BOTH calls; the unparseable one reaches the consumer
(with `null` arguments) instead of being dropped. -/
theorem c8_unparseable_pending_delivered :
    ∃ (delivered : List ToolCall),
      (oaProcessChunk c8state "data: [DONE]\n\n".data).2 =
        OAPoll.item ⟨[], some delivered, true, none⟩ ∧
      (⟨some "b".data, ⟨"bad".data, Json.null⟩⟩ : ToolCall) ∈ delivered :=
  ⟨[⟨some "a".data, ⟨"good".data, Json.obj [("x".data, Json.num 1)]⟩⟩,
    ⟨some "b".data, ⟨"bad".data, Json.null⟩⟩], rfl, by simp⟩

/-- Claim C2 (amended): the Ollama decoder skips a malformed line — a chunk
holding a valid line, a malformed line and another valid line yields exactly
the two valid items, in order, with no error item — and the OpenRouter
decoder turns a record that fails to decode into no events and no state
change.  (The OpenAI processor instead fails the poll; see the
counterexample.) -/
theorem c2_malformed_record_skipped :
    (∀ (l1 l2 l3 : Str) (r1 r3 : ChatResponse),
      '\n' ∉ l1 → '\n' ∉ l2 → '\n' ∉ l3 →
      l1 ≠ [] → l2 ≠ [] → l3 ≠ [] →
      (parseJson l1).bind decodeChatResponse = some r1 →
      (parseJson l2).bind decodeChatResponse = none →
      (parseJson l3).bind decodeChatResponse = some r3 →
      ollamaProcessChunk (l1 ++ '\n' :: (l2 ++ '\n' :: l3)) =
        [ollamaChatItemOfResponse r1, ollamaChatItemOfResponse r3]) ∧
    (∀ (st : ORDecodeState) (data : Str),
      (parseJson data).bind decodeORResponse = none →
      orProcessData st data = (st, [])) := by
  constructor
  · intro l1 l2 l3 r1 r3 h1 h2 h3 hn1 hn2 hn3 p1 p2 p3
    unfold ollamaProcessChunk
    rw [splitOnChar_append '\n' l1 _ h1, splitOnChar_append '\n' l2 _ h2,
      splitOnChar_of_no_sep '\n' l3 h3]
    simp only [List.filterMap_cons, List.filterMap_nil]
    rw [if_neg hn1, if_neg hn2, if_neg hn3, p1, p2, p3]
    rfl
  · intro st data h
    simp [orProcessData, h]

/-- Claim C2 witness: concrete valid–malformed–valid Ollama lines, and a
concrete malformed OpenRouter record. -/
theorem c2_malformed_record_skipped_witness :
    ollamaProcessChunk
        ("\x7b\"message\":\x7b\"role\":\"a\",\"content\":\"X\"\x7d,\"done\":false\x7d".data ++
         '\n' :: ("oops".data ++ '\n' ::
          "\x7b\"message\":\x7b\"role\":\"a\",\"content\":\"Y\"\x7d,\"done\":true\x7d".data)) =
      [ollamaChatItemOfResponse ⟨⟨"a".data, "X".data, none, none⟩, false, none, none, none, none⟩,
       ollamaChatItemOfResponse ⟨⟨"a".data, "Y".data, none, none⟩, true, none, none, none, none⟩] ∧
    orProcessData OpenRouterStreamProcessor.new.core "\x7bgarbage".data =
      (OpenRouterStreamProcessor.new.core, []) :=
  ⟨c2_malformed_record_skipped.1 _ _ _ _ _
     (by decide) (by decide) (by decide) (by decide) (by decide) (by decide)
     rfl rfl rfl,
   c2_malformed_record_skipped.2 _ _ rfl⟩

/-- Claim C2 counterexample: for the OpenAI stream processor a syntactically
invalid record between two valid ones is FATAL — the poll returns a
JSON-parse-error stream item (and the first valid record delta of the batch
is not delivered), contradicting the claim that decoding continues with no
fatal error for every stream. -/
theorem c2_openai_malformed_record_is_fatal :
    (oaProcessChunk OpenAIStreamProcessor.new c2chunk).2 =
        OAPoll.parseError "\x7bgarbage".data ∧
      ∀ item, (oaProcessChunk OpenAIStreamProcessor.new c2chunk).2 ≠ OAPoll.item item :=
  ⟨rfl, fun _ h => OAPoll.noConfusion h⟩

/-- Claim C5 (amended, OpenRouter part): feeding the argument text in two
fragments — the first carrying the id and name — produces no event while the
buffer fails to parse, then exactly one ToolCall event the instant the
concatenated buffer parses as valid JSON; both pending entries are removed,
and the event is identical to the one produced by a single fragment
carrying the whole argument text. -/
theorem c5_openrouter_argument_reassembly :
    ∀ (st0 : ORDecodeState) (id name a b : Str) (v : Json)
      (rid robj rmodel : Str) (rcr : Nat),
      st0.accumulating_tool_args = [] → st0.tool_call_info = [] →
      parseJson a = none → parseJson (a ++ b) = some v →
      orProcessResponse st0
          ⟨rid, robj, rcr, rmodel,
           [⟨0, none,
             some ⟨"assistant".data, Json.null, none,
               some [⟨some id, some "function".data, some ⟨some name, some a⟩⟩], none⟩,
             none⟩], none⟩ =
        ({ st0 with
            accumulating_tool_args := [(0, a)],
            tool_call_info := [(0, (id, name))] }, []) ∧
      (orProcessResponse
          { st0 with
              accumulating_tool_args := [(0, a)],
              tool_call_info := [(0, (id, name))] }
          ⟨rid, robj, rcr, rmodel,
           [⟨0, none,
             some ⟨"assistant".data, Json.null, none,
               some [⟨none, none, some ⟨none, some b⟩⟩], none⟩,
             none⟩], none⟩) =
        ({ st0 with accumulating_tool_args := [], tool_call_info := [] },
         [StreamEvent.ToolCall id name (a ++ b)]) ∧
      (orProcessResponse st0
          ⟨rid, robj, rcr, rmodel,
           [⟨0, none,
             some ⟨"assistant".data, Json.null, none,
               some [⟨some id, some "function".data, some ⟨some name, some (a ++ b)⟩⟩],
               none⟩,
             none⟩], none⟩).2 =
        [StreamEvent.ToolCall id name (a ++ b)] := by
  intro st0 id name a b v rid robj rmodel rcr hargs hinfo hpa hpab
  refine ⟨?_, ?_, ?_⟩
  · simp [orProcessResponse, orProcessToolFragmentsFrom, orProcessToolFragment,
      orStoreInfo, orHandleArgs, hargs, hinfo, hpa, HMap.get, HMap.insert, Json.asStr]
  · simp [orProcessResponse, orProcessToolFragmentsFrom, orProcessToolFragment,
      orStoreInfo, orHandleArgs, hpab, HMap.get, HMap.insert, HMap.remove, Json.asStr]
  · simp [orProcessResponse, orProcessToolFragmentsFrom, orProcessToolFragment,
      orStoreInfo, orHandleArgs, hargs, hinfo, hpab, HMap.get, HMap.insert,
      HMap.remove, Json.asStr]

/-- Claim C5 witness: the spec example fragments `\x7b"a":1` and `,"b":2\x7d`,
with id `"x"` and name `"f"`, from a fresh processor. -/
theorem c5_openrouter_argument_reassembly_witness :
    (OpenRouterStreamProcessor.new.core.accumulating_tool_args = [] ∧
      OpenRouterStreamProcessor.new.core.tool_call_info = [] ∧
      parseJson "\x7b\"a\":1".data = none ∧
      parseJson ("\x7b\"a\":1".data ++ ",\"b\":2\x7d".data) =
        some (Json.obj [("a".data, Json.num 1), ("b".data, Json.num 2)])) ∧
    (orProcessResponse OpenRouterStreamProcessor.new.core
        ⟨"1".data, "c".data, 1, "m".data,
         [⟨0, none,
           some ⟨"assistant".data, Json.null, none,
             some [⟨some "x".data, some "function".data,
               some ⟨some "f".data, some "\x7b\"a\":1".data⟩⟩], none⟩,
           none⟩], none⟩ =
      ({ OpenRouterStreamProcessor.new.core with
          accumulating_tool_args := [(0, "\x7b\"a\":1".data)],
          tool_call_info := [(0, ("x".data, "f".data))] }, []) ∧
    (orProcessResponse
        { OpenRouterStreamProcessor.new.core with
            accumulating_tool_args := [(0, "\x7b\"a\":1".data)],
            tool_call_info := [(0, ("x".data, "f".data))] }
        ⟨"1".data, "c".data, 1, "m".data,
         [⟨0, none,
           some ⟨"assistant".data, Json.null, none,
             some [⟨none, none, some ⟨none, some ",\"b\":2\x7d".data⟩⟩], none⟩,
           none⟩], none⟩) =
      ({ OpenRouterStreamProcessor.new.core with
          accumulating_tool_args := [], tool_call_info := [] },
       [StreamEvent.ToolCall "x".data "f".data
         ("\x7b\"a\":1".data ++ ",\"b\":2\x7d".data)]) ∧
    (orProcessResponse OpenRouterStreamProcessor.new.core
        ⟨"1".data, "c".data, 1, "m".data,
         [⟨0, none,
           some ⟨"assistant".data, Json.null, none,
             some [⟨some "x".data, some "function".data,
               some ⟨some "f".data,
                 some ("\x7b\"a\":1".data ++ ",\"b\":2\x7d".data)⟩⟩], none⟩,
           none⟩], none⟩).2 =
      [StreamEvent.ToolCall "x".data "f".data
        ("\x7b\"a\":1".data ++ ",\"b\":2\x7d".data)]) :=
  ⟨⟨rfl, rfl, rfl, rfl⟩,
   c5_openrouter_argument_reassembly OpenRouterStreamProcessor.new.core
     "x".data "f".data "\x7b\"a\":1".data ",\"b\":2\x7d".data
     (Json.obj [("a".data, Json.num 1), ("b".data, Json.num 2)])
     "1".data "c".data "m".data 1 rfl rfl rfl rfl⟩

/-- Claim C5 counterexample: in the OpenAI stream processor, at the instant
the accumulated argument buffer first parses as valid JSON (after the
second fragment), the emitted item carries NO tool call and the pending
argument buffer is still retained — the completed ToolCall is not emitted
at that moment, contradicting the claim for this accumulator. -/
theorem c5_openai_not_emitted_at_first_parse :
    (oaProcessChunk (oaProcessChunk OpenAIStreamProcessor.new c5oaChunk1).1
        c5oaChunk2).2 = OAPoll.item ⟨[], none, false, none⟩ ∧
    HMap.get 0 (oaProcessChunk (oaProcessChunk OpenAIStreamProcessor.new c5oaChunk1).1
        c5oaChunk2).1.accumulating_tool_args = some "\x7b\"a\":1,\"b\":2\x7d".data ∧
    parseJson "\x7b\"a\":1,\"b\":2\x7d".data =
      some (Json.obj [("a".data, Json.num 1), ("b".data, Json.num 2)]) :=
  ⟨rfl, rfl, rfl⟩

/-- Claim C1 (code bug, failing input): an OpenRouter stream whose record
carries a non-empty `finish_reason` and is followed by the `[DONE]` sentinel
produces TWO `Done` events — `process_chunk` pushes one `Done` for the
`finish_reason` and another for the sentinel — so the mapped unified stream
contains two items with `done = true`, violating the single-terminal-event
claim. -/
theorem c1_finish_reason_then_done_double_terminal :
    (OpenRouterStreamProcessor.process_chunk OpenRouterStreamProcessor.new c1payload).2 =
      [StreamEvent.Content "hi".data, StreamEvent.Done, StreamEvent.Done] ∧
    ∀ (u : Option TokenUsage),
      ((OpenRouterStreamProcessor.process_chunk OpenRouterStreamProcessor.new
          c1payload).2.map (streamEventToItem u)).countP (fun i => i.done) = 2 :=
  ⟨rfl, fun _ => rfl⟩

theorem tagOpen_cons : tagOpen = '<' :: "tool_call>".data := rfl

theorem tagClose_cons : tagClose = '<' :: "/tool_call>".data := rfl

theorem stripDangling_append (ws : Str) (hw : ∀ c ∈ ws, c.isWhitespace = true) :
    ∀ (body : Str), (∀ c ∈ body, c ≠ '<') →
      stripDanglingToolCall (body ++ (tagOpen ++ ws)) = body := by
  intro body
  induction body with
  | nil =>
    intro _
    rw [List.nil_append]
    have h1 : tagOpen.isPrefixOf (tagOpen ++ ws) = true := by
      rw [List.isPrefixOf_iff_prefix]
      exact List.prefix_append _ _
    have h2 : ((tagOpen ++ ws).drop tagOpen.length).all Char.isWhitespace = true := by
      rw [List.drop_left, List.all_eq_true]
      exact hw
    rw [show tagOpen ++ ws = '<' :: ("tool_call>".data ++ ws) from rfl]
    unfold stripDanglingToolCall
    rw [if_pos]
    exact ⟨h1, h2⟩
  | cons c body' ih =>
    intro hb
    have hc : c ≠ '<' := hb c (by simp)
    rw [List.cons_append]
    unfold stripDanglingToolCall
    rw [if_neg]
    · rw [ih (fun x hx => hb x (by simp [hx]))]
    · intro hcon
      have h1 := hcon.1
      rw [tagOpen_cons] at h1
      simp only [List.isPrefixOf, Bool.and_eq_true, beq_iff_eq] at h1
      exact hc h1.1.symm

/-- Claim C7: in fallback mode, a text that ends with an unterminated
opening marker (the literal `<tool_call>` tag followed only by whitespace)
and contains no complete marker pair yields zero tool calls, and the
dangling marker is stripped from the returned visible text. -/
theorem c7_dangling_marker_suppression :
    ∀ (body ws : Str),
      (∀ c ∈ body, c ≠ '<') → (∀ c ∈ ws, c.isWhitespace = true) →
      process_fallback_response (body ++ (tagOpen ++ ws)) = (rustTrim body, none) := by
  intro body ws hb hw
  have hwne : ∀ c ∈ ws, c ≠ '<' := by
    intro c hc hcon
    have := hw c hc
    rw [hcon] at this
    exact absurd this (by decide)
  have hnoclose : splitFirst tagClose ws = none := by
    rw [tagClose_cons]
    exact splitFirst_none_of_no_head '<' _ ws hwne
  have hopen : splitFirst tagOpen (body ++ (tagOpen ++ ws)) = some (body, ws) := by
    rw [tagOpen_cons, splitFirst_append_left '<' _ body _ hb, ← tagOpen_cons,
      splitFirst_at_self]
    simp
  have hcap : ∀ (fuel : Nat),
      toolCallCaptures fuel (body ++ (tagOpen ++ ws)) = [] := by
    intro fuel
    cases fuel with
    | zero => rfl
    | succ k =>
      unfold toolCallCaptures
      simp only [hopen, hnoclose]
  have hparse : parse_fallback_tool_calls (body ++ (tagOpen ++ ws)) = none := by
    unfold parse_fallback_tool_calls
    rw [hcap]
    rfl
  unfold process_fallback_response
  rw [hparse, stripDangling_append ws hw body hb]

/-- Claim C7 witness: the concrete text `Here you go: <tool_call>` followed
by a newline and spaces. -/
theorem c7_dangling_marker_suppression_witness :
    ((∀ c ∈ "Here you go: ".data, c ≠ '<') ∧
      (∀ c ∈ ['\n', ' ', ' '], Char.isWhitespace c = true)) ∧
    process_fallback_response ("Here you go: ".data ++ (tagOpen ++ ['\n', ' ', ' '])) =
      (rustTrim "Here you go: ".data, none) :=
  ⟨⟨by decide, by decide⟩,
   c7_dangling_marker_suppression "Here you go: ".data ['\n', ' ', ' ']
     (by decide) (by decide)⟩

theorem splitFirst_open_skeleton (pre X : Str) (hp : ∀ c ∈ pre, c ≠ '<') :
    splitFirst tagOpen (pre ++ (tagOpen ++ X)) = some (pre, X) := by
  rw [tagOpen_cons, splitFirst_append_left '<' _ pre _ hp, ← tagOpen_cons,
    splitFirst_at_self]
  simp

theorem splitFirst_close_skeleton (j X : Str) (hj : ∀ c ∈ j, c ≠ '<') :
    splitFirst tagClose (j ++ (tagClose ++ X)) = some (j, X) := by
  rw [tagClose_cons, splitFirst_append_left '<' _ j _ hj, ← tagClose_cons,
    splitFirst_at_self]
  simp

theorem toolCallCaptures_step (f : Nat) (pre j rest : Str)
    (hp : ∀ c ∈ pre, c ≠ '<') (hj : ∀ c ∈ j, c ≠ '<') :
    toolCallCaptures (f + 1) (pre ++ (tagOpen ++ (j ++ (tagClose ++ rest)))) =
      j :: toolCallCaptures f rest := by
  conv_lhs => rw [toolCallCaptures]
  simp only [splitFirst_open_skeleton pre _ hp, splitFirst_close_skeleton j _ hj]

theorem toolCallCaptures_end (f : Nat) (post : Str) (hp : ∀ c ∈ post, c ≠ '<') :
    toolCallCaptures f post = [] := by
  cases f with
  | zero => rfl
  | succ k =>
    unfold toolCallCaptures
    rw [tagOpen_cons, splitFirst_none_of_no_head '<' _ post hp]

theorem removeToolCallSpans_step (f : Nat) (pre j rest : Str)
    (hp : ∀ c ∈ pre, c ≠ '<') (hj : ∀ c ∈ j, c ≠ '<') :
    removeToolCallSpans (f + 1) (pre ++ (tagOpen ++ (j ++ (tagClose ++ rest)))) =
      pre ++ removeToolCallSpans f rest := by
  conv_lhs => rw [removeToolCallSpans]
  simp only [splitFirst_open_skeleton pre _ hp, splitFirst_close_skeleton j _ hj]

theorem removeToolCallSpans_end (f : Nat) (post : Str) (hp : ∀ c ∈ post, c ≠ '<') :
    removeToolCallSpans f post = post := by
  cases f with
  | zero => rfl
  | succ k =>
    unfold removeToolCallSpans
    rw [tagOpen_cons, splitFirst_none_of_no_head '<' _ post hp]

theorem parseInnerToolCall_id (j : Str) (tc : ToolCall)
    (h : parseInnerToolCall j = some tc) : tc.id = none := by
  simp only [parseInnerToolCall] at h
  split at h
  · split at h
    · cases h; rfl
    · exact Option.noConfusion h
  · exact Option.noConfusion h

/-- Claim C6: in fallback mode, a text containing two independent,
non-nested `<tool_call>…</tool_call>` pairs whose enclosed JSON carries
`function.name` and `function.arguments` yields exactly one id-less ToolCall
per pair, in order, and the returned visible text is the input with every
matched marker span removed (trimmed, with the short-text acknowledgement
substitution of the source applied). -/
theorem c6_fallback_extraction :
    ∀ (pre mid post j1 j2 : Str) (tc1 tc2 : ToolCall),
      (∀ c ∈ pre, c ≠ '<') → (∀ c ∈ mid, c ≠ '<') → (∀ c ∈ post, c ≠ '<') →
      (∀ c ∈ j1, c ≠ '<') → (∀ c ∈ j2, c ≠ '<') →
      parseInnerToolCall j1 = some tc1 → parseInnerToolCall j2 = some tc2 →
      process_fallback_response
          (pre ++ (tagOpen ++ (j1 ++ (tagClose ++
            (mid ++ (tagOpen ++ (j2 ++ (tagClose ++ post)))))))) =
        (if utf8Len (rustTrim (pre ++ (mid ++ post))) < 10 then ackText
         else rustTrim (pre ++ (mid ++ post)),
         some [tc1, tc2]) ∧
      tc1.id = none ∧ tc2.id = none := by
  intro pre mid post j1 j2 tc1 tc2 hpre hmid hpost hj1 hj2 pt1 pt2
  set content := pre ++ (tagOpen ++ (j1 ++ (tagClose ++
    (mid ++ (tagOpen ++ (j2 ++ (tagClose ++ post))))))) with hcontent
  have hlen : 2 ≤ content.length := by
    rw [hcontent]
    simp [List.length_append, tagOpen, tagClose]
    omega
  have hN1 : content.length = (content.length - 1) + 1 := by omega
  have hN2 : content.length - 1 = (content.length - 2) + 1 := by omega
  have hcap : toolCallCaptures content.length content = [j1, j2] := by
    rw [hcontent, hN1,
      toolCallCaptures_step _ pre j1 _ hpre hj1, hN2,
      toolCallCaptures_step _ mid j2 _ hmid hj2,
      toolCallCaptures_end _ post hpost]
  have hparse : parse_fallback_tool_calls content = some [tc1, tc2] := by
    unfold parse_fallback_tool_calls
    rw [hcap]
    simp [List.filterMap_cons, pt1, pt2]
  have hremove : removeToolCallSpans content.length content = pre ++ (mid ++ post) := by
    rw [hcontent, hN1,
      removeToolCallSpans_step _ pre j1 _ hpre hj1, hN2,
      removeToolCallSpans_step _ mid j2 _ hmid hj2,
      removeToolCallSpans_end _ post hpost]
  refine ⟨?_, parseInnerToolCall_id j1 tc1 pt1, parseInnerToolCall_id j2 tc2 pt2⟩
  unfold process_fallback_response
  rw [hparse, hremove]

/-- Claim C6 witness: the text
`Sure! <tool_call>…f…</tool_call> and <tool_call>…g…</tool_call> done`. -/
theorem c6_fallback_extraction_witness :
    (parseInnerToolCall "\x7b\"function\":\x7b\"name\":\"f\",\"arguments\":\x7b\x7d\x7d\x7d".data =
        some ⟨none, ⟨"f".data, Json.obj []⟩⟩ ∧
      parseInnerToolCall
          "\x7b\"function\":\x7b\"name\":\"g\",\"arguments\":\x7b\"x\":1\x7d\x7d\x7d".data =
        some ⟨none, ⟨"g".data, Json.obj [("x".data, Json.num 1)]⟩⟩) ∧
    (process_fallback_response
        ("Sure! ".data ++ (tagOpen ++
          ("\x7b\"function\":\x7b\"name\":\"f\",\"arguments\":\x7b\x7d\x7d\x7d".data ++ (tagClose ++
            (" and ".data ++ (tagOpen ++
              ("\x7b\"function\":\x7b\"name\":\"g\",\"arguments\":\x7b\"x\":1\x7d\x7d\x7d".data ++
                (tagClose ++ " done".data)))))))) =
      (if utf8Len (rustTrim ("Sure! ".data ++ (" and ".data ++ " done".data))) < 10
       then ackText
       else rustTrim ("Sure! ".data ++ (" and ".data ++ " done".data)),
       some [⟨none, ⟨"f".data, Json.obj []⟩⟩,
             ⟨none, ⟨"g".data, Json.obj [("x".data, Json.num 1)]⟩⟩]) ∧
      (⟨none, ⟨"f".data, Json.obj []⟩⟩ : ToolCall).id = none ∧
      (⟨none, ⟨"g".data, Json.obj [("x".data, Json.num 1)]⟩⟩ : ToolCall).id = none) :=
  ⟨⟨rfl, rfl⟩,
   c6_fallback_extraction "Sure! ".data " and ".data " done".data
     "\x7b\"function\":\x7b\"name\":\"f\",\"arguments\":\x7b\x7d\x7d\x7d".data
     "\x7b\"function\":\x7b\"name\":\"g\",\"arguments\":\x7b\"x\":1\x7d\x7d\x7d".data
     ⟨none, ⟨"f".data, Json.obj []⟩⟩
     ⟨none, ⟨"g".data, Json.obj [("x".data, Json.num 1)]⟩⟩
     (by decide) (by decide) (by decide) (by decide) (by decide) rfl rfl⟩

/-- Claim C3 counterexample: the Ollama newline decoder keeps no buffer
across transport chunks — a record delivered whole yields its item, but the
same record split at byte offset 20 yields nothing from either half: the
record is silently lost, so chunk-boundary invariance fails. -/
theorem c3_ollama_split_record_dropped :
    ollamaProcessChunk c3line = [⟨"hi".data, none, false, none⟩] ∧
    ollamaProcessChunk (c3line.take 20) = [] ∧
    ollamaProcessChunk (c3line.drop 20) = [] ∧
    c3line.take 20 ++ c3line.drop 20 = c3line :=
  ⟨rfl, rfl, rfl, List.take_append_drop 20 c3line⟩


theorem orDrainLoop_succ (fuel : Nat) (st : OpenRouterStreamProcessor) :
    orDrainLoop (fuel + 1) st =
      match splitFirst nnSep st.buffer with
      | none => (st, [], false)
      | some p =>
        let st' := { st with buffer := p.2 }
        if (rustTrim p.1).head? = some ':' then orDrainLoop fuel st'
        else
          match dropLit "data: ".data (rustTrim p.1) with
          | none => orDrainLoop fuel st'
          | some data =>
            if data = "[DONE]".data then (st', [StreamEvent.Done], true)
            else
              let r1 := orProcessData st'.core data
              let r2 := orDrainLoop fuel (withCore st'.buffer r1.1)
              (r2.1, r1.2 ++ r2.2.1, r2.2.2) := rfl

theorem splitFirst_nnSep_length (st : OpenRouterStreamProcessor) (p : Str × Str)
    (h : splitFirst nnSep st.buffer = some p) :
    p.2.length + 2 ≤ st.buffer.length := by
  have hs := splitFirst_eq_some nnSep st.buffer p.1 p.2 (by rw [h])
  rw [hs, List.length_append, List.length_append]
  have h2 : nnSep.length = 2 := rfl
  omega

theorem orDrainLoop_fuel_eq :
    ∀ (f : Nat) (st : OpenRouterStreamProcessor), st.buffer.length ≤ f →
      orDrainLoop f st = orDrain st := by
  intro f
  induction f using Nat.strong_induction_on with
  | _ f ih =>
    intro st hle
    match f with
    | 0 =>
      have h0 : st.buffer.length = 0 := Nat.le_zero.mp hle
      rw [orDrain, h0]
    | Nat.succ k =>
      rw [orDrain]
      match hm : st.buffer.length with
      | 0 =>
        have hb : st.buffer = [] := List.eq_nil_of_length_eq_zero hm
        show orDrainLoop (k + 1) st = orDrainLoop 0 st
        rw [orDrainLoop_succ, hb]
        rfl
      | Nat.succ m =>
        show orDrainLoop (k + 1) st = orDrainLoop (m + 1) st
        rw [orDrainLoop_succ, orDrainLoop_succ]
        match hsplit : splitFirst nnSep st.buffer with
        | none => rfl
        | some p =>
          have hlen2 := splitFirst_nnSep_length st p hsplit
          have hk : p.2.length ≤ k := by omega
          have hmm : p.2.length ≤ m := by omega
          have hrec1 : orDrainLoop k { st with buffer := p.2 } =
              orDrain { st with buffer := p.2 } :=
            ih k (by omega) _ hk
          have hrec2 : orDrainLoop m { st with buffer := p.2 } =
              orDrain { st with buffer := p.2 } :=
            ih m (by omega) _ hmm
          simp only []
          by_cases hcol : (rustTrim p.1).head? = some ':'
          · simp only [hcol, if_pos, hrec1, hrec2]
          · simp only [hcol, if_neg, not_false_iff]
            match hd : dropLit "data: ".data (rustTrim p.1) with
            | none => rw [hrec1, hrec2]
            | some data =>
              by_cases hdone : data = "[DONE]".data
              · simp [hdone]
              · simp only [hdone, if_neg, not_false_iff]
                have hrec1' : orDrainLoop k
                    (withCore p.2 (orProcessData ({ st with buffer := p.2 } :
                      OpenRouterStreamProcessor).core data).1) =
                    orDrain (withCore p.2 (orProcessData ({ st with buffer := p.2 } :
                      OpenRouterStreamProcessor).core data).1) :=
                  ih k (by omega) _ (by simpa [withCore] using hk)
                have hrec2' : orDrainLoop m
                    (withCore p.2 (orProcessData ({ st with buffer := p.2 } :
                      OpenRouterStreamProcessor).core data).1) =
                    orDrain (withCore p.2 (orProcessData ({ st with buffer := p.2 } :
                      OpenRouterStreamProcessor).core data).1) :=
                  ih m (by omega) _ (by simpa [withCore] using hmm)
                rw [hrec1', hrec2']

theorem orDrain_unfold (st : OpenRouterStreamProcessor) :
    orDrain st =
      match splitFirst nnSep st.buffer with
      | none => (st, [], false)
      | some p =>
        let st' := { st with buffer := p.2 }
        if (rustTrim p.1).head? = some ':' then orDrain st'
        else
          match dropLit "data: ".data (rustTrim p.1) with
          | none => orDrain st'
          | some data =>
            if data = "[DONE]".data then (st', [StreamEvent.Done], true)
            else
              let r1 := orProcessData st'.core data
              let r2 := orDrain (withCore st'.buffer r1.1)
              (r2.1, r1.2 ++ r2.2.1, r2.2.2) := by
  match hm : st.buffer.length with
  | 0 =>
    have hb : st.buffer = [] := List.eq_nil_of_length_eq_zero hm
    rw [orDrain, hm, hb]
    rfl
  | Nat.succ m =>
    rw [orDrain, hm]
    show orDrainLoop (m + 1) st = _
    rw [orDrainLoop_succ]
    match hsplit : splitFirst nnSep st.buffer with
    | none => rfl
    | some p =>
      have hlen2 : p.2.length + 2 ≤ st.buffer.length :=
        splitFirst_nnSep_length st p hsplit
      have hmm : p.2.length ≤ m := by omega
      have hrec : orDrainLoop m { st with buffer := p.2 } =
          orDrain { st with buffer := p.2 } :=
        orDrainLoop_fuel_eq m _ hmm
      simp only []
      by_cases hcol : (rustTrim p.1).head? = some ':'
      · simp only [hcol, if_pos, hrec]
      · simp only [hcol, if_neg, not_false_iff]
        match hd : dropLit "data: ".data (rustTrim p.1) with
        | none => rw [hrec]
        | some data =>
          by_cases hdone : data = "[DONE]".data
          · simp [hdone]
          · simp only [hdone, if_neg, not_false_iff]
            rw [orDrainLoop_fuel_eq m _ (by simpa [withCore] using hmm)]

theorem orDrain_false_quiescent :
    ∀ (n : Nat) (st : OpenRouterStreamProcessor), st.buffer.length ≤ n →
      (orDrain st).2.2 = false → splitFirst nnSep (orDrain st).1.buffer = none := by
  intro n
  induction n using Nat.strong_induction_on with
  | _ n ih =>
    intro st hle hfalse
    rw [orDrain_unfold] at hfalse ⊢
    match hsplit : splitFirst nnSep st.buffer with
    | none =>
      simp only [hsplit] at hfalse ⊢
    | some p =>
      have hlen2 := splitFirst_nnSep_length st p hsplit
      simp only [hsplit] at hfalse ⊢
      by_cases hcol : (rustTrim p.1).head? = some ':'
      · simp only [hcol, if_pos] at hfalse ⊢
        exact ih p.2.length (by omega) _ (le_refl _) hfalse
      · simp only [hcol, if_neg, not_false_iff] at hfalse ⊢
        match hd : dropLit "data: ".data (rustTrim p.1) with
        | none =>
          simp only [hd] at hfalse ⊢
          exact ih p.2.length (by omega) _ (le_refl _) hfalse
        | some data =>
          by_cases hdone : data = "[DONE]".data
          · simp only [hd, hdone] at hfalse
            simp at hfalse
          · simp only [hd, hdone, if_neg, not_false_iff] at hfalse ⊢
            exact ih p.2.length (by omega) _
              (by simp [withCore]) hfalse

theorem orDrain_append :
    ∀ (n : Nat) (st : OpenRouterStreamProcessor) (b : Str)
      (st1 : OpenRouterStreamProcessor) (e1 : List StreamEvent) (br1 : Bool),
      st.buffer.length ≤ n → orDrain st = (st1, e1, br1) →
      orDrain { st with buffer := st.buffer ++ b } =
        (if br1 then ({ st1 with buffer := st1.buffer ++ b }, e1, true)
         else ((orDrain { st1 with buffer := st1.buffer ++ b }).1,
               e1 ++ (orDrain { st1 with buffer := st1.buffer ++ b }).2.1,
               (orDrain { st1 with buffer := st1.buffer ++ b }).2.2)) := by
  intro n
  induction n using Nat.strong_induction_on with
  | _ n ih =>
    intro st b st1 e1 br1 hle hdr
    match hsplit : splitFirst nnSep st.buffer with
    | none =>
      rw [orDrain_unfold] at hdr
      simp only [hsplit] at hdr
      rw [Prod.mk.injEq, Prod.mk.injEq] at hdr
      obtain ⟨h1, h2, h3⟩ := hdr
      subst h1
      subst h2
      subst h3
      simp
    | some p =>
      have hlen2 := splitFirst_nnSep_length st p hsplit
      have happ : splitFirst nnSep (st.buffer ++ b) = some (p.1, p.2 ++ b) :=
        splitFirst_append_some nnSep st.buffer b p.1 p.2 (by rw [hsplit])
      rw [orDrain_unfold] at hdr
      simp only [hsplit] at hdr
      conv_lhs => rw [orDrain_unfold]
      simp only [happ]
      by_cases hcol : (rustTrim p.1).head? = some ':'
      · simp only [hcol, if_pos] at hdr ⊢
        exact ih p.2.length (by omega) { st with buffer := p.2 } b st1 e1 br1
          (le_refl _) hdr
      · simp only [hcol, if_neg, not_false_iff] at hdr ⊢
        match hd : dropLit "data: ".data (rustTrim p.1) with
        | none =>
          simp only [hd] at hdr ⊢
          exact ih p.2.length (by omega) { st with buffer := p.2 } b st1 e1 br1
            (le_refl _) hdr
        | some data =>
          by_cases hdone : data = "[DONE]".data
          · simp only [hd, hdone, if_pos] at hdr ⊢
            rw [Prod.mk.injEq, Prod.mk.injEq] at hdr
            obtain ⟨h1, h2, h3⟩ := hdr
            subst h1
            subst h2
            subst h3
            simp
          · simp only [hd, hdone, if_neg, not_false_iff] at hdr ⊢
            dsimp only [withCore, OpenRouterStreamProcessor.core] at hdr ⊢
            rw [Prod.mk.injEq, Prod.mk.injEq] at hdr
            obtain ⟨h1, h2, h3⟩ := hdr
            subst h1
            subst h2
            subst h3
            set c := orProcessData
              ⟨st.accumulating_tool_args, st.tool_call_info, st.usage⟩ data
              with hc
            have key := ih p.2.length (by omega)
              ⟨p.2, c.1.accumulating_tool_args, c.1.tool_call_info,
                c.1.usage⟩ b
              (orDrain ⟨p.2, c.1.accumulating_tool_args, c.1.tool_call_info,
                c.1.usage⟩).1
              (orDrain ⟨p.2, c.1.accumulating_tool_args, c.1.tool_call_info,
                c.1.usage⟩).2.1
              (orDrain ⟨p.2, c.1.accumulating_tool_args, c.1.tool_call_info,
                c.1.usage⟩).2.2
              (le_refl _) rfl
            dsimp only at key
            rw [key]
            by_cases hbr :
                (orDrain ⟨p.2, c.1.accumulating_tool_args, c.1.tool_call_info,
                  c.1.usage⟩).2.2 = true
            · simp [hbr]
            · simp [hbr, List.append_assoc]

theorem orFeedAll_inert :
    ∀ (cs : List Str) (st : OpenRouterStreamProcessor),
      splitFirst nnSep (st.buffer ++ cs.flatten) = none →
      orFeedAll st cs = ({ st with buffer := st.buffer ++ cs.flatten }, []) := by
  intro cs
  induction cs with
  | nil =>
    intro st h
    simp [orFeedAll]
  | cons ch cs ih =>
    intro st h
    have hj : (ch :: cs).flatten = ch ++ cs.flatten := by simp
    rw [hj] at h
    rw [← List.append_assoc] at h
    have h1 : splitFirst nnSep (st.buffer ++ ch) = none :=
      splitFirst_none_of_append_none nnSep (st.buffer ++ ch) cs.flatten h
    have hpc : OpenRouterStreamProcessor.process_chunk st ch =
        ({ st with buffer := st.buffer ++ ch }, []) := by
      unfold OpenRouterStreamProcessor.process_chunk
      rw [orDrain_unfold]
      simp only [h1]
    have hrest := ih { st with buffer := st.buffer ++ ch } h
    simp only [orFeedAll, hpc, hrest, hj]
    simp [List.append_assoc]

/-- C3 (amended, OpenRouter half): feeding a payload to the OpenRouter SSE
processor as several transport chunks yields the same final processor state
and the same ordered event sequence as feeding the concatenated payload in
one `process_chunk` call, provided the initial buffer holds no complete
record and no complete record remains buffered at the end.  In particular
a record split across chunk boundaries is reassembled through the buffer,
never dropped. -/
theorem c3_openrouter_chunk_invariance :
    ∀ (chunks : List Str) (st : OpenRouterStreamProcessor),
      splitFirst nnSep st.buffer = none →
      splitFirst nnSep
        (OpenRouterStreamProcessor.process_chunk st chunks.flatten).1.buffer
        = none →
      orFeedAll st chunks =
        OpenRouterStreamProcessor.process_chunk st chunks.flatten := by
  intro chunks
  induction chunks with
  | nil =>
    intro st hstart hend
    simp only [orFeedAll, OpenRouterStreamProcessor.process_chunk,
      List.flatten_nil, List.append_nil]
    rw [orDrain_unfold]
    simp [hstart]
  | cons ch cs ih =>
    intro st hstart hend
    have hflat : (ch :: cs).flatten = ch ++ cs.flatten := by simp
    match hD1 : orDrain { st with buffer := st.buffer ++ ch } with
    | (st1, e1, br1) =>
    have happ := orDrain_append (st.buffer ++ ch).length
      { st with buffer := st.buffer ++ ch } cs.flatten st1 e1 br1
      (le_refl _) hD1
    dsimp only at happ
    rw [List.append_assoc] at happ
    simp only [OpenRouterStreamProcessor.process_chunk, hflat] at hend
    simp only [orFeedAll, OpenRouterStreamProcessor.process_chunk, hflat,
      hD1]
    rw [happ] at hend ⊢
    by_cases hbr : br1 = true
    · subst hbr
      rw [if_pos (rfl : true = true)] at hend ⊢
      dsimp only at hend ⊢
      have hin := orFeedAll_inert cs st1 hend
      rw [hin]
      simp
    · have hbf : br1 = false := by revert hbr; cases br1 <;> simp
      subst hbf
      rw [if_neg (by simp : ¬ false = true)] at hend ⊢
      dsimp only at hend ⊢
      have hq0 : splitFirst nnSep st1.buffer = none := by
        have h := orDrain_false_quiescent (st.buffer ++ ch).length
          { st with buffer := st.buffer ++ ch } (le_refl _) (by rw [hD1])
        simp only [hD1] at h
        exact h
      have hih := ih st1 hq0
        (by simp only [OpenRouterStreamProcessor.process_chunk]; exact hend)
      rw [hih]
      simp only [OpenRouterStreamProcessor.process_chunk]

/-- C3 witness input, first transport chunk: the front of an SSE content
record, cut in the middle of the `content` key. -/
def c3orChunk1 : Str :=
  ("data: \x7b\"id\":\"1\",\"object\":\"c\",\"created\":1,\"model\":\"m\"," ++
   "\"choices\":[\x7b\"index\":0,\"delta\":\x7b\"role\":\"assistant\",\"cont").data

/-- C3 witness input, second transport chunk: the rest of the record, the
blank-line separator, and the `[DONE]` sentinel. -/
def c3orChunk2 : Str :=
  "ent\":\"hi\"\x7d\x7d]\x7d\n\ndata: [DONE]\n\n".data

/-- Witness for C3: at a record split mid-key across two chunks followed by
the `[DONE]` sentinel, both hypotheses hold, split feeding equals joined
feeding, and the reassembled record is actually decoded (a `Content "hi"`
event is emitted before `Done`). -/
theorem c3_openrouter_chunk_invariance_witness :
    splitFirst nnSep OpenRouterStreamProcessor.new.buffer = none ∧
    splitFirst nnSep
      (OpenRouterStreamProcessor.process_chunk OpenRouterStreamProcessor.new
        [c3orChunk1, c3orChunk2].flatten).1.buffer = none ∧
    orFeedAll OpenRouterStreamProcessor.new [c3orChunk1, c3orChunk2] =
      OpenRouterStreamProcessor.process_chunk OpenRouterStreamProcessor.new
        [c3orChunk1, c3orChunk2].flatten ∧
    (orFeedAll OpenRouterStreamProcessor.new [c3orChunk1, c3orChunk2]).2 =
      [StreamEvent.Content "hi".data, StreamEvent.Done] :=
  ⟨rfl, rfl,
   c3_openrouter_chunk_invariance [c3orChunk1, c3orChunk2]
     OpenRouterStreamProcessor.new rfl rfl,
   rfl⟩
